import Mathlib

/-!
Friend-Finder: similarity scoring and bounded top-k selection

A shallow embedding of `src/main.cpp` (`Game`, `UserProfile`, `calculateSimilarity`,
`findSimilarUsers`) together with theorems about it.

Modelling conventions
* An `int` is a 32-bit two's complement integer, held in an `Int`. The `int` additions of
  `addGame` and `addHourlyPlaytime` and the `int` products of the loop over the hours are reduced
  into the range `-2 ^ 31 .. 2 ^ 31 - 1` (`wrapInt`), which is what the compiled program
  computes when the exact result does not fit. The comparison
  `topUsers.size() < maxSuggestions` converts the `int` to a 64-bit `size_t` (`asSize`).
* `double` arithmetic is read as exact arithmetic. The two sub-scores that are quotients of
  integers are computed in `ℚ`; the third needs a square root and lives in `ℝ`. A division by
  zero and the square root of a negative number have no value: the result is `none` (the source
  produces a NaN or an infinity there).
* `std::unordered_set<string>` is a `Finset String`; `std::map<int,int>` is an association list
  with increasing keys; `std::priority_queue` with `greater<pair<double,string>>` is the list of
  its elements in increasing order, whose head is `top()`.
-/

namespace FriendFinder

/-! ## Data model -/

/-- The `struct Game`: a name and a playtime in minutes. -/
structure Game where
  name : String
  playtime : Int
deriving DecidableEq, Repr

/-- The `struct UserProfile`. `hourlyPlaytime` is the `map<int,int>` from hour to minutes. -/
structure UserProfile where
  username : String
  games : List Game
  hourlyPlaytime : List (Int × Int)
  totalPlaytime : Int
deriving DecidableEq, Repr

/-- The value of an `int` expression whose exact result is `x`: `x` reduced modulo `2 ^ 32` into
`-2 ^ 31 .. 2 ^ 31 - 1`. -/
def wrapInt (x : Int) : Int :=
  (x + 2 ^ 31) % 2 ^ 32 - 2 ^ 31

/-- The constructor `UserProfile(string name)`: no games, no hourly data, total `0`. -/
def UserProfile.mk0 (name : String) : UserProfile :=
  { username := name, games := [], hourlyPlaytime := [], totalPlaytime := 0 }

/-- The method `addGame`: append the game and add its playtime to the total, an `int`. -/
def UserProfile.addGame (u : UserProfile) (name : String) (playtime : Int) : UserProfile :=
  { u with games := u.games ++ [Game.mk name playtime],
           totalPlaytime := wrapInt (u.totalPlaytime + playtime) }

/-- The statement `m[hour] += minutes` on a `map<int,int>` kept in increasing key order: an absent
key is created with value `0` before the addition, which is an `int` addition. -/
def mapAdd (hour minutes : Int) : List (Int × Int) → List (Int × Int)
  | [] => [(hour, wrapInt (0 + minutes))]
  | (h, m) :: rest =>
      if h = hour then (h, wrapInt (m + minutes)) :: rest
      else if hour < h then (hour, wrapInt (0 + minutes)) :: (h, m) :: rest
      else (h, m) :: mapAdd hour minutes rest

/-- The method `addHourlyPlaytime`. -/
def UserProfile.addHourlyPlaytime (u : UserProfile) (hour minutes : Int) : UserProfile :=
  { u with hourlyPlaytime := mapAdd hour minutes u.hourlyPlaytime }

/-- The expression `m.count(hour) ? m.at(hour) : 0`. -/
def hourAt (m : List (Int × Int)) (hour : Int) : Int :=
  match m.lookup hour with
  | some v => v
  | none => 0

/-! ## `calculateSimilarity` -/

/-- The set `games1` / `games2`: the names of a profile's games. -/
def gameNames (u : UserProfile) : Finset String :=
  (u.games.map Game.name).toFinset

/-- The set `intersection`: the names of `games1` that `games2` contains. -/
def gameIntersection (user1 user2 : UserProfile) : Finset String :=
  (gameNames user1).filter (fun g => g ∈ gameNames user2)

/-- The local `gameSimilarity`: `0` for an empty intersection, else
`|intersection| / (|games1| + |games2| - |intersection|)`, the sizes being `size_t` values. -/
def gameSimilarity (user1 user2 : UserProfile) : ℚ :=
  if gameIntersection user1 user2 = ∅ then 0
  else ((gameIntersection user1 user2).card : ℚ) /
    (((gameNames user1).card + (gameNames user2).card - (gameIntersection user1 user2).card : ℕ) : ℚ)

/-- The local `playtimeSimilarity`: `1 - |t1 - t2| / max(t1, t2)`. The source does not guard the
divisor; when it is `0` the quotient has no value. -/
def playtimeSimilarity (user1 user2 : UserProfile) : Option ℚ :=
  if max user1.totalPlaytime user2.totalPlaytime = 0 then none
  else some (1 - ((user1.totalPlaytime - user2.totalPlaytime).natAbs : ℚ) /
    ((max user1.totalPlaytime user2.totalPlaytime : Int) : ℚ))

/-- The three accumulators `dotProduct`, `norm1`, `norm2` of the loop over the hours. They are
`double`s that receive at most 24 `int` values each, so their sums are exact. -/
structure HourlyAcc where
  dotProduct : Int
  norm1 : Int
  norm2 : Int
deriving DecidableEq, Repr

/-- One iteration of the loop `for (int hour = 0; hour < 24; hour++)`: each product is formed
in `int` and only then added to the `double` accumulator. -/
def hourlyStep (user1 user2 : UserProfile) (acc : HourlyAcc) (hour : Nat) : HourlyAcc :=
  let p1 := hourAt user1.hourlyPlaytime (hour : Int)
  let p2 := hourAt user2.hourlyPlaytime (hour : Int)
  { dotProduct := acc.dotProduct + wrapInt (p1 * p2),
    norm1 := acc.norm1 + wrapInt (p1 * p1),
    norm2 := acc.norm2 + wrapInt (p2 * p2) }

/-- The whole loop over the hours `0 .. 23`, from accumulators `0`. -/
def hourlySums (user1 user2 : UserProfile) : HourlyAcc :=
  (List.range 24).foldl (hourlyStep user1 user2) (HourlyAcc.mk 0 0 0)

/-- The local `hourlySimilarity`: `0` when a norm is `0`, else
`dotProduct / (sqrt(norm1) * sqrt(norm2))`, which has no value when a norm is negative (the
square root of a negative `double` is a NaN). -/
noncomputable def hourlySimilarity (user1 user2 : UserProfile) : Option ℝ :=
  if (hourlySums user1 user2).norm1 = 0 ∨ (hourlySums user1 user2).norm2 = 0 then some 0
  else if (hourlySums user1 user2).norm1 < 0 ∨ (hourlySums user1 user2).norm2 < 0 then none
  else some (((hourlySums user1 user2).dotProduct : ℝ) /
    (Real.sqrt ((hourlySums user1 user2).norm1 : ℝ) *
      Real.sqrt ((hourlySums user1 user2).norm2 : ℝ)))

/-- The weighted sum returned by `calculateSimilarity`. -/
noncomputable def composite (g p h : ℝ) : ℝ :=
  0.4 * g + 0.3 * p + 0.3 * h

/-- The function `calculateSimilarity`; `none` when the unguarded division by
`max(totalPlaytime)` has divisor `0` or when the temporal sub-score has no value. -/
noncomputable def calculateSimilarity (user1 user2 : UserProfile) : Option ℝ :=
  match playtimeSimilarity user1 user2, hourlySimilarity user1 user2 with
  | some p, some h => some (composite ((gameSimilarity user1 user2 : ℚ) : ℝ) ((p : ℚ) : ℝ) h)
  | _, _ => none

/-! ## `findSimilarUsers` -/

/-- A `double` of the ranking: a real number, or `none` for the result of a division by zero. -/
abbrev Score := Option ℝ

/-- The comparison `a < b` on `double`: false as soon as one side has no value. -/
def Score.lt : Score → Score → Prop
  | some x, some y => x < y
  | _, _ => False

noncomputable instance Score.decLt (a b : Score) : Decidable (Score.lt a b) :=
  Classical.propDecidable _

/-- An element of the queue, `pair<double, string>`. -/
abbrev UserSimilarity := Score × String

/-- The `operator<` of `std::pair`: first components, then second components. -/
def pairLt (a b : UserSimilarity) : Prop :=
  Score.lt a.1 b.1 ∨ (¬ Score.lt b.1 a.1 ∧ a.2 < b.2)

noncomputable instance pairLt.dec (a b : UserSimilarity) : Decidable (pairLt a b) :=
  Classical.propDecidable _

/-- The comparator `greater<UserSimilarity>`. -/
def pairGreater (a b : UserSimilarity) : Prop := pairLt b a

noncomputable instance pairGreater.dec (a b : UserSimilarity) : Decidable (pairGreater a b) :=
  Classical.propDecidable _

/-- The operation `topUsers.emplace(x)` on the queue held in increasing order: `x` goes before the
first element it is not greater than. -/
noncomputable def pqEmplace (x : UserSimilarity) : List UserSimilarity → List UserSimilarity
  | [] => [x]
  | y :: ys => if pairGreater x y then y :: pqEmplace x ys else x :: y :: ys

/-- What can go wrong in `findSimilarUsers`: `top()` on an empty queue. -/
inductive Fault where
  | topOfEmpty
deriving DecidableEq, Repr

/-- The value of `maxSuggestions` once converted to `size_t` (64 bits) for the comparison
`topUsers.size() < maxSuggestions`. -/
def asSize (maxSuggestions : Int) : Nat :=
  (maxSuggestions % 2 ^ 64).toNat

/-- The body of the loop `for (const auto& user : allUsers)`. -/
noncomputable def considerUser (targetUser : UserProfile) (maxSuggestions : Int)
    (topUsers : List UserSimilarity) (user : UserProfile) : Except Fault (List UserSimilarity) :=
  if user.username ≠ targetUser.username then
    if topUsers.length < asSize maxSuggestions then
      Except.ok (pqEmplace (calculateSimilarity targetUser user, user.username) topUsers)
    else
      match topUsers with
      | [] => Except.error Fault.topOfEmpty
      | top :: rest =>
          if Score.lt top.1 (calculateSimilarity targetUser user) then
            Except.ok (pqEmplace (calculateSimilarity targetUser user, user.username) rest)
          else Except.ok (top :: rest)
  else Except.ok topUsers

/-- The final loop: the queue is emptied from its top into `result`, last index first (the index
`i` is an `int`; queue sizes are taken to fit it). -/
def drain (topUsers : List UserSimilarity) : List (String × Score) :=
  (topUsers.map fun e => (e.2, e.1)).reverse

/-- The function `findSimilarUsers`. -/
noncomputable def findSimilarUsers (targetUser : UserProfile) (allUsers : List UserProfile)
    (maxSuggestions : Int) : Except Fault (List (String × Score)) :=
  (allUsers.foldlM (considerUser targetUser maxSuggestions) []).map drain

/-! ## Specification-side definitions -/

/-- A well-formed profile: item durations and hourly minutes are non-negative and the total is
the sum of the item durations. -/
def WellFormed (u : UserProfile) : Prop :=
  (∀ g ∈ u.games, 0 ≤ g.playtime) ∧ (∀ e ∈ u.hourlyPlaytime, 0 ≤ e.2) ∧
    u.totalPlaytime = (u.games.map Game.playtime).sum

instance WellFormed.dec (u : UserProfile) : Decidable (WellFormed u) := by
  unfold WellFormed
  infer_instance

/-- The candidates `findSimilarUsers` scores: those whose username differs from the target's. -/
def qualifying (targetUser : UserProfile) (allUsers : List UserProfile) : List UserProfile :=
  allUsers.filter fun u => u.username ≠ targetUser.username

/-- The pairs offered to the queue, in the order of the candidate list. -/
noncomputable def offered (targetUser : UserProfile) (allUsers : List UserProfile) :
    List UserSimilarity :=
  (qualifying targetUser allUsers).map fun c => (calculateSimilarity targetUser c, c.username)

/-- The inner `if / else if` of the loop body, for a queue bound already converted to `size_t`. -/
noncomputable def offer (bound : Nat) (topUsers : List UserSimilarity) (e : UserSimilarity) :
    Except Fault (List UserSimilarity) :=
  if topUsers.length < bound then Except.ok (pqEmplace e topUsers)
  else
    match topUsers with
    | [] => Except.error Fault.topOfEmpty
    | top :: rest =>
        if Score.lt top.1 e.1 then Except.ok (pqEmplace e rest) else Except.ok (top :: rest)

/-- The target of the specification's scenario. -/
def scenarioTarget : UserProfile :=
  { username := "Target", games := [Game.mk "Chess" 60, Game.mk "Go" 60],
    hourlyPlaytime := [(18, 60), (19, 60)], totalPlaytime := 120 }

/-- The candidate X of the specification's scenario. -/
def candidateX : UserProfile :=
  { username := "X", games := [Game.mk "Chess" 120],
    hourlyPlaytime := [(18, 60), (19, 60)], totalPlaytime := 120 }

/-- The candidate Y of the specification's scenario. -/
def candidateY : UserProfile :=
  { username := "Y", games := [], hourlyPlaytime := [], totalPlaytime := 0 }

/-- A queue element whose score is a real number, with the order of `pair<double, string>`:
by score, then by name. -/
abbrev Ranked := Lex (ℝ × String)

/-- The queue element a ranked pair stands for. -/
def Ranked.toPair (e : Ranked) : UserSimilarity := (some (ofLex e).1, (ofLex e).2)

/-- The loop body on a queue of ranked pairs (all scores are numbers). -/
noncomputable def offerRanked (bound : Nat) (q : List Ranked) (e : Ranked) : List Ranked :=
  if q.length < bound then q.orderedInsert (· ≤ ·) e
  else
    match q with
    | [] => []
    | top :: rest =>
        if (ofLex top).1 < (ofLex e).1 then rest.orderedInsert (· ≤ ·) e else top :: rest

/-- The ranked pairs of the qualifying candidates (an undefined score is read as `0`; the
theorems use it only when every score is defined). -/
noncomputable def ranked (targetUser : UserProfile) (allUsers : List UserProfile) : List Ranked :=
  (qualifying targetUser allUsers).map fun c =>
    toLex ((calculateSimilarity targetUser c).getD 0, c.username)

/-- The score of a ranked pair. -/
def Ranked.score (e : Ranked) : ℝ := (ofLex e).1

/-- The comparison `a <= b` on `double`: false as soon as one side has no value. -/
def Score.le : Score → Score → Prop
  | some x, some y => x ≤ y
  | _, _ => False

/-- The scores of the qualifying candidates that are numbers, in the order of the list. -/
noncomputable def candidateScores (targetUser : UserProfile) (allUsers : List UserProfile) :
    List ℝ :=
  (qualifying targetUser allUsers).filterMap fun c => calculateSimilarity targetUser c

/-- The `min(k, n)` largest values of a list of `n` scores, largest first. -/
noncomputable def largest (k : Nat) (scores : List ℝ) : List ℝ :=
  (scores.insertionSort (· ≥ ·)).take (min k scores.length)

/-- Sorting by repeated insertion into an increasing list. -/
noncomputable def insertAll (asc : List ℝ) (scores : List ℝ) : List ℝ :=
  scores.foldl (fun acc s => acc.orderedInsert (· ≤ ·) s) asc

/-- A profile whose total is `0` although it holds a game and hourly data. -/
def idleChess : UserProfile :=
  { username := "P", games := [Game.mk "Chess" 0], hourlyPlaytime := [(18, 60)],
    totalPlaytime := 0 }

/-- A second profile whose total is `0`. -/
def idleGo : UserProfile :=
  { username := "Q", games := [Game.mk "Chess" 0, Game.mk "Go" 0], hourlyPlaytime := [(18, 30)],
    totalPlaytime := 0 }

/-- The Jaccard index of two finite sets of names, `0` for an empty union. -/
def jaccardIndex (s t : Finset String) : ℚ :=
  if s ∪ t = ∅ then 0 else ((s ∩ t).card : ℚ) / ((s ∪ t).card : ℚ)

/-- The component `h` of a profile's 24-dimensional hourly vector: the minutes stored under the
key `h`, `0` when the key is absent. -/
def hourVector (p : UserProfile) (h : Fin 24) : ℝ :=
  match p.hourlyPlaytime.lookup ((h : ℕ) : Int) with
  | some v => (v : ℝ)
  | none => 0

/-- The dot product of two 24-dimensional vectors. -/
noncomputable def dot24 (v w : Fin 24 → ℝ) : ℝ := ∑ h, v h * w h

/-- The Euclidean norm of a 24-dimensional vector. -/
noncomputable def norm24 (v : Fin 24 → ℝ) : ℝ := Real.sqrt (∑ h, v h * v h)

/-- The cosine similarity of two 24-dimensional vectors, `0` when a norm is `0`. -/
noncomputable def cosine24 (v w : Fin 24 → ℝ) : ℝ :=
  if norm24 v = 0 ∨ norm24 w = 0 then 0 else dot24 v w / (norm24 v * norm24 w)

/-- The two mutating methods of `UserProfile`, as data. -/
inductive ProfileOp where
  | addGame (name : String) (playtime : Int)
  | addHourlyPlaytime (hour minutes : Int)
deriving DecidableEq, Repr

/-- Run one method call on a profile. -/
def ProfileOp.run (u : UserProfile) : ProfileOp → UserProfile
  | ProfileOp.addGame name playtime => u.addGame name playtime
  | ProfileOp.addHourlyPlaytime hour minutes => u.addHourlyPlaytime hour minutes

/-- An `addGame` call is admissible when its playtime is non-negative; every
`addHourlyPlaytime` call is. -/
def ProfileOp.Admissible : ProfileOp → Prop
  | ProfileOp.addGame _ playtime => 0 ≤ playtime
  | ProfileOp.addHourlyPlaytime _ _ => True

/-- The profile obtained from `UserProfile(name)` by a sequence of method calls. -/
def buildProfile (name : String) (ops : List ProfileOp) : UserProfile :=
  ops.foldl ProfileOp.run (UserProfile.mk0 name)

/-- The invariant of the data model: the total is the sum of the playtimes of the games and is
non-negative. -/
def TotalConsistent (u : UserProfile) : Prop :=
  u.totalPlaytime = (u.games.map Game.playtime).sum ∧ 0 ≤ u.totalPlaytime

/-- The target of the scenario with one more hourly entry, under a key outside `0 .. 23`. -/
def scenarioTargetLate : UserProfile :=
  { scenarioTarget with hourlyPlaytime := [(18, 60), (19, 60), (30, 500)] }

/-- The candidate X of the scenario under the username `A`. -/
def twinA : UserProfile := { candidateX with username := "A" }

/-- The candidate X of the scenario under the username `B`. -/
def twinB : UserProfile := { candidateX with username := "B" }

/-- A target without games, hourly data or playtime. -/
def idleTarget : UserProfile :=
  { username := "T", games := [], hourlyPlaytime := [], totalPlaytime := 0 }

/-- A candidate without games, hourly data or playtime. -/
def idleCandidate : UserProfile :=
  { username := "N", games := [], hourlyPlaytime := [], totalPlaytime := 0 }

/-- A candidate with one game and a total of five minutes. -/
def busyCandidate : UserProfile :=
  { username := "M", games := [Game.mk "Go" 5], hourlyPlaytime := [], totalPlaytime := 5 }

/-- Hourly values whose products fit an `int`: every stored value lies in `-46340 .. 46340`
(`46340 * 46340 < 2 ^ 31 <= 46341 * 46341`). -/
def HourlyBounded (u : UserProfile) : Prop :=
  ∀ e ∈ u.hourlyPlaytime, -46340 ≤ e.2 ∧ e.2 ≤ 46340

instance HourlyBounded.dec (u : UserProfile) : Decidable (HourlyBounded u) := by
  unfold HourlyBounded
  infer_instance

/-- A profile with 65536 minutes recorded in hour `0`. -/
def marathon : UserProfile :=
  { username := "H", games := [], hourlyPlaytime := [(0, 65536)], totalPlaytime := 0 }

/-- A profile with 46341 minutes recorded in hour `0`. -/
def sprinter : UserProfile :=
  { username := "S", games := [], hourlyPlaytime := [(0, 46341)], totalPlaytime := 0 }

/-- The playtime a method call adds to the total. -/
def ProfileOp.playtime : ProfileOp → Int
  | ProfileOp.addGame _ playtime => playtime
  | ProfileOp.addHourlyPlaytime _ _ => 0

/-- Two `addGame` calls whose playtimes (35791394 hours and 1 hour, in minutes) add up to more
than `2 ^ 31 - 1`. -/
def overflowOps : List ProfileOp :=
  [ProfileOp.addGame "G1" 2147483640, ProfileOp.addGame "G2" 60]

/-! ## Facts about `calculateSimilarity` -/

theorem gameIntersection_eq_inter (a b : UserProfile) :
    gameIntersection a b = gameNames a ∩ gameNames b := by
  unfold gameIntersection
  ext x; simp [Finset.mem_filter, Finset.mem_inter]

theorem gameIntersection_comm (a b : UserProfile) :
    gameIntersection a b = gameIntersection b a := by
  rw [gameIntersection_eq_inter, gameIntersection_eq_inter, Finset.inter_comm]

theorem gameSimilarity_comm (a b : UserProfile) : gameSimilarity a b = gameSimilarity b a := by
  unfold gameSimilarity
  rw [gameIntersection_comm a b, Nat.add_comm (gameNames a).card]

theorem playtimeSimilarity_comm (a b : UserProfile) :
    playtimeSimilarity a b = playtimeSimilarity b a := by
  unfold playtimeSimilarity
  rw [max_comm a.totalPlaytime, ← Int.natAbs_neg (a.totalPlaytime - b.totalPlaytime), neg_sub]

theorem hourly_foldl (a b : UserProfile) (l : List Nat) (acc : HourlyAcc) :
    l.foldl (hourlyStep a b) acc =
      { dotProduct := acc.dotProduct + (l.map fun (h : Nat) =>
          wrapInt (hourAt a.hourlyPlaytime (h : Int) * hourAt b.hourlyPlaytime (h : Int))).sum,
        norm1 := acc.norm1 + (l.map fun (h : Nat) =>
          wrapInt (hourAt a.hourlyPlaytime (h : Int) * hourAt a.hourlyPlaytime (h : Int))).sum,
        norm2 := acc.norm2 + (l.map fun (h : Nat) =>
          wrapInt (hourAt b.hourlyPlaytime (h : Int) * hourAt b.hourlyPlaytime (h : Int))).sum } := by
  induction l generalizing acc with
  | nil => simp
  | cons h t ih =>
    rw [List.foldl_cons, ih]
    simp [hourlyStep, add_assoc]

theorem hourlySums_eq (a b : UserProfile) :
    hourlySums a b =
      { dotProduct := ∑ h in Finset.range 24,
          wrapInt (hourAt a.hourlyPlaytime (h : Int) * hourAt b.hourlyPlaytime (h : Int)),
        norm1 := ∑ h in Finset.range 24,
          wrapInt (hourAt a.hourlyPlaytime (h : Int) * hourAt a.hourlyPlaytime (h : Int)),
        norm2 := ∑ h in Finset.range 24,
          wrapInt (hourAt b.hourlyPlaytime (h : Int) * hourAt b.hourlyPlaytime (h : Int)) } := by
  unfold hourlySums
  rw [hourly_foldl]
  simp only [zero_add]
  rfl

theorem hourlySums_dotProduct (a b : UserProfile) :
    (hourlySums a b).dotProduct = ∑ h in Finset.range 24,
      wrapInt (hourAt a.hourlyPlaytime (h : Int) * hourAt b.hourlyPlaytime (h : Int)) := by
  rw [hourlySums_eq]

theorem hourlySums_norm1 (a b : UserProfile) :
    (hourlySums a b).norm1 = ∑ h in Finset.range 24,
      wrapInt (hourAt a.hourlyPlaytime (h : Int) * hourAt a.hourlyPlaytime (h : Int)) := by
  rw [hourlySums_eq]

theorem hourlySums_norm2 (a b : UserProfile) :
    (hourlySums a b).norm2 = ∑ h in Finset.range 24,
      wrapInt (hourAt b.hourlyPlaytime (h : Int) * hourAt b.hourlyPlaytime (h : Int)) := by
  rw [hourlySums_eq]

theorem hourlySums_swap (a b : UserProfile) :
    (hourlySums b a).dotProduct = (hourlySums a b).dotProduct ∧
    (hourlySums b a).norm1 = (hourlySums a b).norm2 ∧
    (hourlySums b a).norm2 = (hourlySums a b).norm1 := by
  refine ⟨?_, ?_, ?_⟩
  · rw [hourlySums_dotProduct, hourlySums_dotProduct]
    exact Finset.sum_congr rfl fun h _ => by rw [mul_comm]
  · rw [hourlySums_norm1, hourlySums_norm2]
  · rw [hourlySums_norm2, hourlySums_norm1]

theorem hourlySimilarity_comm (a b : UserProfile) :
    hourlySimilarity a b = hourlySimilarity b a := by
  obtain ⟨hd, h1, h2⟩ := hourlySums_swap a b
  unfold hourlySimilarity
  rw [hd, h1, h2]
  by_cases h : (hourlySums a b).norm1 = 0 ∨ (hourlySums a b).norm2 = 0
  · rw [if_pos h, if_pos h.symm]
  · rw [if_neg h, if_neg (mt Or.symm h)]
    by_cases hn : (hourlySums a b).norm1 < 0 ∨ (hourlySums a b).norm2 < 0
    · rw [if_pos hn, if_pos hn.symm]
    · rw [if_neg hn, if_neg (mt Or.symm hn), mul_comm]

theorem calculateSimilarity_comm (a b : UserProfile) :
    calculateSimilarity a b = calculateSimilarity b a := by
  unfold calculateSimilarity
  rw [playtimeSimilarity_comm a b, gameSimilarity_comm a b, hourlySimilarity_comm a b]

theorem wrapInt_of_fits (x : Int) (h1 : -(2 ^ 31) ≤ x) (h2 : x < 2 ^ 31) : wrapInt x = x := by
  unfold wrapInt
  omega

theorem hourAt_bounded (u : UserProfile) (hu : HourlyBounded u) (hour : Int) :
    -46340 ≤ hourAt u.hourlyPlaytime hour ∧ hourAt u.hourlyPlaytime hour ≤ 46340 := by
  unfold HourlyBounded at hu
  generalize u.hourlyPlaytime = m at hu
  induction m with
  | nil => simp [hourAt, List.lookup]
  | cons e t ih =>
    obtain ⟨k, v⟩ := e
    have ht : ∀ e ∈ t, -46340 ≤ e.2 ∧ e.2 ≤ 46340 := fun e he => hu e (List.mem_cons_of_mem _ he)
    by_cases hk : hour = k
    · subst hk
      have := hu (hour, v) (List.mem_cons_self _ _)
      simpa [hourAt, List.lookup] using this
    · have hb : (hour == k) = false := by simpa using hk
      have := ih ht
      simpa [hourAt, List.lookup, hb] using this

theorem wrapInt_mul_of_bounded (p q : Int) (hp : -46340 ≤ p ∧ p ≤ 46340)
    (hq : -46340 ≤ q ∧ q ≤ 46340) : wrapInt (p * q) = p * q := by
  apply wrapInt_of_fits
  · nlinarith [hp.1, hp.2, hq.1, hq.2]
  · nlinarith [hp.1, hp.2, hq.1, hq.2]

theorem hourlySums_of_bounded (a b : UserProfile) (ha : HourlyBounded a) (hb : HourlyBounded b) :
    (hourlySums a b).dotProduct = ∑ h in Finset.range 24,
        hourAt a.hourlyPlaytime (h : Int) * hourAt b.hourlyPlaytime (h : Int) ∧
      (hourlySums a b).norm1 = ∑ h in Finset.range 24,
        hourAt a.hourlyPlaytime (h : Int) * hourAt a.hourlyPlaytime (h : Int) ∧
      (hourlySums a b).norm2 = ∑ h in Finset.range 24,
        hourAt b.hourlyPlaytime (h : Int) * hourAt b.hourlyPlaytime (h : Int) := by
  rw [hourlySums_dotProduct, hourlySums_norm1, hourlySums_norm2]
  refine ⟨?_, ?_, ?_⟩
  · exact Finset.sum_congr rfl fun h _ =>
      wrapInt_mul_of_bounded _ _ (hourAt_bounded a ha _) (hourAt_bounded b hb _)
  · exact Finset.sum_congr rfl fun h _ =>
      wrapInt_mul_of_bounded _ _ (hourAt_bounded a ha _) (hourAt_bounded a ha _)
  · exact Finset.sum_congr rfl fun h _ =>
      wrapInt_mul_of_bounded _ _ (hourAt_bounded b hb _) (hourAt_bounded b hb _)

theorem hourAt_nonneg (m : List (Int × Int)) (hm : ∀ e ∈ m, 0 ≤ e.2) (hour : Int) :
    0 ≤ hourAt m hour := by
  induction m with
  | nil => simp [hourAt, List.lookup]
  | cons e t ih =>
    obtain ⟨k, v⟩ := e
    have ht : ∀ e ∈ t, 0 ≤ e.2 := fun e he => hm e (List.mem_cons_of_mem _ he)
    by_cases hk : hour = k
    · subst hk
      have := hm (hour, v) (List.mem_cons_self _ _)
      simpa [hourAt, List.lookup] using this
    · have hb : (hour == k) = false := by simpa using hk
      have := ih ht
      simpa [hourAt, List.lookup, hb] using this

theorem gameSimilarity_nonneg (a b : UserProfile) : 0 ≤ gameSimilarity a b := by
  unfold gameSimilarity
  split_ifs
  · exact le_rfl
  · positivity

theorem gameIntersection_card_le (a b : UserProfile) :
    (gameIntersection a b).card ≤ (gameNames a).card + (gameNames b).card - (gameIntersection a b).card := by
  have h1 : (gameIntersection a b).card ≤ (gameNames a).card :=
    Finset.card_le_card (Finset.filter_subset _ _)
  have h2 : (gameIntersection a b).card ≤ (gameNames b).card := by
    rw [gameIntersection_comm]
    exact Finset.card_le_card (Finset.filter_subset _ _)
  omega

theorem gameSimilarity_le_one (a b : UserProfile) : gameSimilarity a b ≤ 1 := by
  unfold gameSimilarity
  split_ifs with h
  · exact zero_le_one
  · have hpos : 0 < (gameIntersection a b).card :=
      Finset.card_pos.mpr (Finset.nonempty_iff_ne_empty.mpr h)
    have hle := gameIntersection_card_le a b
    rw [div_le_one (by exact_mod_cast (lt_of_lt_of_le hpos hle))]
    exact_mod_cast hle

theorem playtimeSimilarity_range (a b : UserProfile) (ha : 0 ≤ a.totalPlaytime)
    (hb : 0 ≤ b.totalPlaytime) (p : ℚ) (hp : playtimeSimilarity a b = some p) :
    0 ≤ p ∧ p ≤ 1 := by
  unfold playtimeSimilarity at hp
  split_ifs at hp with h0
  have hm : (0 : Int) < max a.totalPlaytime b.totalPlaytime :=
    lt_of_le_of_ne (le_max_of_le_left ha) (Ne.symm h0)
  have hmq : (0 : ℚ) < ((max a.totalPlaytime b.totalPlaytime : Int) : ℚ) := by exact_mod_cast hm
  have hle : |a.totalPlaytime - b.totalPlaytime| ≤ max a.totalPlaytime b.totalPlaytime := by
    rw [abs_le]
    rcases le_total a.totalPlaytime b.totalPlaytime with h | h
    · rw [max_eq_right h]; constructor <;> omega
    · rw [max_eq_left h]; constructor <;> omega
  have hleq : (((a.totalPlaytime - b.totalPlaytime).natAbs : ℕ) : ℚ) ≤
      ((max a.totalPlaytime b.totalPlaytime : Int) : ℚ) := by
    rw [Nat.cast_natAbs]
    exact_mod_cast hle
  have hq : (((a.totalPlaytime - b.totalPlaytime).natAbs : ℕ) : ℚ) /
      ((max a.totalPlaytime b.totalPlaytime : Int) : ℚ) ≤ 1 := (div_le_one hmq).mpr hleq
  have hq0 : 0 ≤ (((a.totalPlaytime - b.totalPlaytime).natAbs : ℕ) : ℚ) /
      ((max a.totalPlaytime b.totalPlaytime : Int) : ℚ) := by positivity
  simp only [Option.some.injEq] at hp
  subst hp
  constructor <;> linarith

theorem hourlySums_facts (a b : UserProfile) (ha : HourlyBounded a) (hb : HourlyBounded b) :
    0 ≤ (hourlySums a b).norm1 ∧ 0 ≤ (hourlySums a b).norm2 ∧
    (hourlySums a b).dotProduct ^ 2 ≤ (hourlySums a b).norm1 * (hourlySums a b).norm2 := by
  obtain ⟨hd, h1, h2⟩ := hourlySums_of_bounded a b ha hb
  rw [hd, h1, h2]
  refine ⟨Finset.sum_nonneg fun h _ => mul_self_nonneg _,
    Finset.sum_nonneg fun h _ => mul_self_nonneg _, ?_⟩
  have := Finset.sum_mul_sq_le_sq_mul_sq (Finset.range 24)
    (fun h : ℕ => hourAt a.hourlyPlaytime (h : Int)) (fun h : ℕ => hourAt b.hourlyPlaytime (h : Int))
  simpa only [pow_two] using this

theorem hourlySimilarity_defined (a b : UserProfile) (ha : HourlyBounded a)
    (hb : HourlyBounded b) :
    ∃ h : ℝ, hourlySimilarity a b = some h ∧ h ≤ 1 ∧
      (0 ≤ (hourlySums a b).dotProduct → 0 ≤ h) := by
  obtain ⟨h1, h2, hcs⟩ := hourlySums_facts a b ha hb
  unfold hourlySimilarity
  by_cases h0 : (hourlySums a b).norm1 = 0 ∨ (hourlySums a b).norm2 = 0
  · rw [if_pos h0]
    exact ⟨0, rfl, zero_le_one, fun _ => le_rfl⟩
  · rw [if_neg h0, if_neg (fun h => h.elim (fun h => absurd h1 (not_le.mpr h))
      (fun h => absurd h2 (not_le.mpr h)))]
    refine ⟨_, rfl, ?_, ?_⟩
    · push_neg at h0
      have p1 : (0 : ℝ) < ((hourlySums a b).norm1 : ℝ) := by
        exact_mod_cast lt_of_le_of_ne h1 (Ne.symm h0.1)
      have p2 : (0 : ℝ) < ((hourlySums a b).norm2 : ℝ) := by
        exact_mod_cast lt_of_le_of_ne h2 (Ne.symm h0.2)
      have hpos : 0 < Real.sqrt ((hourlySums a b).norm1 : ℝ) *
          Real.sqrt ((hourlySums a b).norm2 : ℝ) :=
        mul_pos (Real.sqrt_pos.mpr p1) (Real.sqrt_pos.mpr p2)
      rw [div_le_one hpos, ← Real.sqrt_mul p1.le]
      apply Real.le_sqrt_of_sq_le
      exact_mod_cast hcs
    · intro hd
      have : (0 : ℝ) ≤ ((hourlySums a b).dotProduct : ℝ) := by exact_mod_cast hd
      exact div_nonneg this (mul_nonneg (Real.sqrt_nonneg _) (Real.sqrt_nonneg _))

theorem hourlySums_dot_nonneg (a b : UserProfile) (ha : HourlyBounded a) (hb : HourlyBounded b)
    (ha0 : ∀ e ∈ a.hourlyPlaytime, 0 ≤ e.2) (hb0 : ∀ e ∈ b.hourlyPlaytime, 0 ≤ e.2) :
    0 ≤ (hourlySums a b).dotProduct := by
  rw [(hourlySums_of_bounded a b ha hb).1]
  exact Finset.sum_nonneg fun h _ => mul_nonneg (hourAt_nonneg _ ha0 _) (hourAt_nonneg _ hb0 _)

theorem wellFormed_total_nonneg (u : UserProfile) (h : WellFormed u) : 0 ≤ u.totalPlaytime := by
  rw [h.2.2]
  apply List.sum_nonneg
  intro x hx
  obtain ⟨g, hg, rfl⟩ := List.mem_map.mp hx
  exact h.1 g hg

theorem calculateSimilarity_eq_some (a b : UserProfile) (p : ℚ) (h : ℝ)
    (hp : playtimeSimilarity a b = some p) (hh : hourlySimilarity a b = some h) :
    calculateSimilarity a b = some (composite ((gameSimilarity a b : ℚ) : ℝ) ((p : ℚ) : ℝ) h) := by
  unfold calculateSimilarity
  rw [hp, hh]

theorem calculateSimilarity_none_of_playtime (a b : UserProfile)
    (hp : playtimeSimilarity a b = none) : calculateSimilarity a b = none := by
  unfold calculateSimilarity
  rw [hp]

theorem calculateSimilarity_none_of_hourly (a b : UserProfile)
    (hh : hourlySimilarity a b = none) : calculateSimilarity a b = none := by
  unfold calculateSimilarity
  rw [hh]
  cases playtimeSimilarity a b <;> rfl

theorem playtimeSimilarity_isSome_iff (a b : UserProfile) :
    (playtimeSimilarity a b).isSome ↔ max a.totalPlaytime b.totalPlaytime ≠ 0 := by
  unfold playtimeSimilarity
  split_ifs with h <;> simp [h]

theorem calculateSimilarity_range (a b : UserProfile) (ha : WellFormed a) (hb : WellFormed b)
    (hpos : max a.totalPlaytime b.totalPlaytime ≠ 0) (hab : HourlyBounded a)
    (hbb : HourlyBounded b) :
    ∃ s : ℝ, calculateSimilarity a b = some s ∧ 0 ≤ s ∧ s ≤ 1 := by
  obtain ⟨p, hp⟩ := Option.isSome_iff_exists.mp ((playtimeSimilarity_isSome_iff a b).mpr hpos)
  obtain ⟨h, hh, h1, h0⟩ := hourlySimilarity_defined a b hab hbb
  have h0 := h0 (hourlySums_dot_nonneg a b hab hbb ha.2.1 hb.2.1)
  refine ⟨_, calculateSimilarity_eq_some a b p h hp hh, ?_⟩
  obtain ⟨p0, p1⟩ := playtimeSimilarity_range a b (wellFormed_total_nonneg a ha)
    (wellFormed_total_nonneg b hb) p hp
  have g0 : (0 : ℝ) ≤ ((gameSimilarity a b : ℚ) : ℝ) := by exact_mod_cast gameSimilarity_nonneg a b
  have g1 : ((gameSimilarity a b : ℚ) : ℝ) ≤ 1 := by exact_mod_cast gameSimilarity_le_one a b
  have q0 : (0 : ℝ) ≤ ((p : ℚ) : ℝ) := by exact_mod_cast p0
  have q1 : ((p : ℚ) : ℝ) ≤ 1 := by exact_mod_cast p1
  unfold composite
  constructor
  · positivity
  · norm_num; linarith

/-! ## The loop of `findSimilarUsers`: facts that hold for all scores -/

theorem considerUser_eq (t : UserProfile) (k : Int) (q : List UserSimilarity) (u : UserProfile) :
    considerUser t k q u =
      if u.username ≠ t.username then offer (asSize k) q (calculateSimilarity t u, u.username)
      else Except.ok q := by
  unfold considerUser offer
  rfl

theorem foldlM_considerUser (t : UserProfile) (k : Int) (us : List UserProfile)
    (q : List UserSimilarity) :
    us.foldlM (considerUser t k) q = (offered t us).foldlM (offer (asSize k)) q := by
  induction us generalizing q with
  | nil => rfl
  | cons u rest ih =>
    rw [List.foldlM_cons, considerUser_eq]
    by_cases h : u.username ≠ t.username
    · have hq : offered t (u :: rest) = (calculateSimilarity t u, u.username) :: offered t rest := by
        simp [offered, qualifying, List.filter_cons, h]
      rw [if_pos h, hq, List.foldlM_cons]
      cases offer (asSize k) q (calculateSimilarity t u, u.username) with
      | error e => rfl
      | ok q1 => exact ih q1
    · have hq : offered t (u :: rest) = offered t rest := by
        simp [offered, qualifying, List.filter_cons, h]
      rw [if_neg h, hq]
      exact ih q

theorem findSimilarUsers_eq (t : UserProfile) (us : List UserProfile) (k : Int) :
    findSimilarUsers t us k = ((offered t us).foldlM (offer (asSize k)) []).map drain := by
  unfold findSimilarUsers
  rw [foldlM_considerUser]

theorem pqEmplace_length (x : UserSimilarity) (q : List UserSimilarity) :
    (pqEmplace x q).length = q.length + 1 := by
  induction q with
  | nil => rfl
  | cons y ys ih =>
    unfold pqEmplace
    split_ifs <;> simp [ih]

theorem pqEmplace_perm (x : UserSimilarity) (q : List UserSimilarity) :
    (pqEmplace x q).Perm (x :: q) := by
  induction q with
  | nil => exact List.Perm.refl _
  | cons y ys ih =>
    unfold pqEmplace
    split_ifs
    · exact (List.Perm.cons y ih).trans (List.Perm.swap x y ys)
    · exact List.Perm.refl _

theorem offer_ok_of_pos (bound : Nat) (hb : 1 ≤ bound) (q : List UserSimilarity)
    (e : UserSimilarity) (hq : q.length ≤ bound) :
    ∃ q1, offer bound q e = Except.ok q1 ∧ q1.length = min bound (q.length + 1) ∧
      q1.Subperm (e :: q) := by
  unfold offer
  by_cases h : q.length < bound
  · rw [if_pos h]
    refine ⟨_, rfl, ?_, (pqEmplace_perm e q).subperm⟩
    rw [pqEmplace_length]; omega
  · rw [if_neg h]
    cases q with
    | nil => simp at h; omega
    | cons top rest =>
      simp only [List.length_cons] at h hq ⊢
      split_ifs
      · refine ⟨_, rfl, ?_, ?_⟩
        · rw [pqEmplace_length]; omega
        · exact (pqEmplace_perm e rest).subperm.trans
            ((List.sublist_cons_self top rest).cons₂ e).subperm
      · refine ⟨_, rfl, ?_, (List.sublist_cons_self e _).subperm⟩
        simp only [List.length_cons]; omega

theorem run_ok_of_pos (bound : Nat) (hb : 1 ≤ bound) (es : List UserSimilarity)
    (q : List UserSimilarity) (hq : q.length ≤ bound) :
    ∃ q1, es.foldlM (offer bound) q = Except.ok q1 ∧ q1.length = min bound (q.length + es.length) ∧
      q1.Subperm (es ++ q) := by
  induction es generalizing q with
  | nil => exact ⟨q, rfl, by simp; omega, List.Subperm.refl _⟩
  | cons e rest ih =>
    obtain ⟨q1, h1, hl, hs⟩ := offer_ok_of_pos bound hb q e hq
    obtain ⟨q2, h2, hl2, hs2⟩ := ih q1 (by omega)
    refine ⟨q2, ?_, ?_, ?_⟩
    · rw [List.foldlM_cons, h1]; exact h2
    · rw [hl2, hl]; simp only [List.length_cons]; omega
    · refine hs2.trans ?_
      refine ((List.subperm_append_left rest).mpr hs).trans ?_
      exact (List.perm_middle).subperm

theorem run_perm_of_large (bound : Nat) (es : List UserSimilarity) (q : List UserSimilarity)
    (hq : q.length + es.length ≤ bound) :
    ∃ q1, es.foldlM (offer bound) q = Except.ok q1 ∧ q1.Perm (es ++ q) := by
  induction es generalizing q with
  | nil => exact ⟨q, rfl, List.Perm.refl _⟩
  | cons e rest ih =>
    simp only [List.length_cons] at hq
    have hlt : q.length < bound := by omega
    have h1 : offer bound q e = Except.ok (pqEmplace e q) := by
      unfold offer
      rw [if_pos hlt]
    obtain ⟨q2, h2, hp⟩ := ih (pqEmplace e q) (by rw [pqEmplace_length]; omega)
    refine ⟨q2, ?_, ?_⟩
    · rw [List.foldlM_cons, h1]; exact h2
    · refine hp.trans ?_
      refine ((pqEmplace_perm e q).append_left rest).trans ?_
      exact List.perm_middle

theorem run_zero_bound (e : UserSimilarity) (es : List UserSimilarity) :
    (e :: es).foldlM (offer 0) [] = Except.error Fault.topOfEmpty := by
  rw [List.foldlM_cons]
  rfl

theorem asSize_of_nonneg (k : Int) (h0 : 0 ≤ k) (h1 : k < 2 ^ 64) : asSize k = k.toNat := by
  unfold asSize
  rw [Int.emod_eq_of_lt h0 h1]

theorem asSize_of_neg (k : Int) (h0 : k < 0) (h1 : -(2 ^ 64) ≤ k) :
    asSize k = (2 ^ 64 + k).toNat := by
  unfold asSize
  have : k % 2 ^ 64 = 2 ^ 64 + k := by
    rw [← Int.add_mul_emod_self_left k (2 ^ 64) 1, mul_one, add_comm]
    exact Int.emod_eq_of_lt (by omega) (by omega)
  rw [this]

theorem drain_length (q : List UserSimilarity) : (drain q).length = q.length := by
  simp [drain]

theorem drain_perm (q : List UserSimilarity) :
    (drain q).Perm (q.map fun e => (e.2, e.1)) :=
  List.reverse_perm _

theorem offered_length (t : UserProfile) (us : List UserProfile) :
    (offered t us).length = (qualifying t us).length := by
  simp [offered]

theorem mem_qualifying (t c : UserProfile) (us : List UserProfile) :
    c ∈ qualifying t us ↔ c ∈ us ∧ c.username ≠ t.username := by
  simp [qualifying]

theorem findSimilarUsers_ok_of_bound (t : UserProfile) (us : List UserProfile) (k : Int)
    (hb : 1 ≤ asSize k) :
    ∃ q, (offered t us).foldlM (offer (asSize k)) [] = Except.ok q ∧
      findSimilarUsers t us k = Except.ok (drain q) ∧
      q.length = min (asSize k) (qualifying t us).length ∧ q.Subperm (offered t us) := by
  obtain ⟨q, hq, hl, hs⟩ := run_ok_of_pos (asSize k) hb (offered t us) [] (Nat.zero_le _)
  refine ⟨q, hq, ?_, ?_, ?_⟩
  · rw [findSimilarUsers_eq, hq]; rfl
  · rw [hl, offered_length]; simp
  · simpa using hs

/-! ## The scenario of the specification, evaluated -/

theorem gameSimilarity_targetX : gameSimilarity scenarioTarget candidateX = 1 / 2 := by
  have h1 : gameIntersection scenarioTarget candidateX = {"Chess"} := by decide
  have h2 : gameNames scenarioTarget = {"Chess", "Go"} := by decide
  have h3 : gameNames candidateX = {"Chess"} := by decide
  unfold gameSimilarity
  rw [h1, h2, h3]
  have : ({"Chess"} : Finset String) ≠ ∅ := by decide
  rw [if_neg this]
  have c1 : ({"Chess"} : Finset String).card = 1 := by decide
  have c2 : ({"Chess", "Go"} : Finset String).card = 2 := by decide
  rw [c1, c2]
  norm_num

theorem playtimeSimilarity_targetX : playtimeSimilarity scenarioTarget candidateX = some 1 := by
  simp [playtimeSimilarity, scenarioTarget, candidateX]

theorem hourlySums_targetX : hourlySums scenarioTarget candidateX = HourlyAcc.mk 7200 7200 7200 := by
  decide

theorem hourlySimilarity_targetX : hourlySimilarity scenarioTarget candidateX = some 1 := by
  unfold hourlySimilarity
  rw [hourlySums_targetX]
  norm_num

theorem calculateSimilarity_targetX :
    calculateSimilarity scenarioTarget candidateX = some (4 / 5) := by
  rw [calculateSimilarity_eq_some _ _ _ _ playtimeSimilarity_targetX hourlySimilarity_targetX,
    gameSimilarity_targetX]
  unfold composite
  norm_num

theorem calculateSimilarity_targetY :
    calculateSimilarity scenarioTarget candidateY = some 0 := by
  have hg : gameSimilarity scenarioTarget candidateY = 0 := by
    have h1 : gameIntersection scenarioTarget candidateY = ∅ := by decide
    unfold gameSimilarity
    rw [if_pos h1]
  have hp : playtimeSimilarity scenarioTarget candidateY = some 0 := by
    simp [playtimeSimilarity, scenarioTarget, candidateY]
  have hs : hourlySums scenarioTarget candidateY = HourlyAcc.mk 0 7200 0 := by decide
  have hh : hourlySimilarity scenarioTarget candidateY = some 0 := by
    unfold hourlySimilarity
    rw [hs]
    simp
  rw [calculateSimilarity_eq_some _ _ _ _ hp hh, hg]
  simp [composite]

/-! ## The loop when every score is a number: a queue over a linear order -/

theorem pairLt_toPair (a b : Ranked) : pairLt a.toPair b.toPair ↔ a < b := by
  obtain ⟨a1, a2⟩ := a
  obtain ⟨b1, b2⟩ := b
  show (a1 < b1 ∨ (¬ b1 < a1 ∧ a2 < b2)) ↔ toLex (a1, a2) < toLex (b1, b2)
  rw [Prod.Lex.lt_iff]
  constructor
  · rintro (h | ⟨h1, h2⟩)
    · exact Or.inl h
    · rcases lt_or_eq_of_le (not_lt.mp h1) with h | h
      · exact Or.inl h
      · exact Or.inr ⟨h, h2⟩
  · rintro (h | ⟨h1, h2⟩)
    · exact Or.inl h
    · exact Or.inr ⟨by simp only at h1; rw [h1]; exact lt_irrefl _, h2⟩

theorem pqEmplace_toPair (e : Ranked) (q : List Ranked) :
    pqEmplace e.toPair (q.map Ranked.toPair) = (q.orderedInsert (· ≤ ·) e).map Ranked.toPair := by
  induction q with
  | nil => rfl
  | cons y ys ih =>
    simp only [List.map_cons, pqEmplace, List.orderedInsert, pairGreater, pairLt_toPair]
    by_cases h : y < e
    · rw [if_pos h, if_neg (not_le.mpr h), ih]
      rfl
    · rw [if_neg h, if_pos (not_lt.mp h)]
      rfl

theorem offer_toPair (bound : Nat) (hb : 1 ≤ bound) (q : List Ranked) (e : Ranked) :
    offer bound (q.map Ranked.toPair) e.toPair =
      Except.ok ((offerRanked bound q e).map Ranked.toPair) := by
  unfold offer offerRanked
  rw [List.length_map]
  by_cases h : q.length < bound
  · rw [if_pos h, if_pos h, pqEmplace_toPair]
  · rw [if_neg h, if_neg h]
    cases q with
    | nil => simp at h; omega
    | cons top rest =>
      simp only [List.map_cons]
      have hlt : Score.lt top.toPair.1 e.toPair.1 ↔ (ofLex top).1 < (ofLex e).1 := Iff.rfl
      by_cases h2 : (ofLex top).1 < (ofLex e).1
      · rw [if_pos (hlt.mpr h2), if_pos h2, pqEmplace_toPair]
      · rw [if_neg (fun h3 => h2 (hlt.mp h3)), if_neg h2]
        rfl

theorem run_toPair (bound : Nat) (hb : 1 ≤ bound) (es q : List Ranked) :
    (es.map Ranked.toPair).foldlM (offer bound) (q.map Ranked.toPair) =
      Except.ok ((es.foldl (offerRanked bound) q).map Ranked.toPair) := by
  induction es generalizing q with
  | nil => rfl
  | cons e rest ih =>
    rw [List.map_cons, List.foldlM_cons, offer_toPair bound hb, List.foldl_cons]
    exact ih _

theorem offered_eq_ranked (t : UserProfile) (us : List UserProfile)
    (hdef : ∀ c ∈ us, c.username ≠ t.username → (calculateSimilarity t c).isSome) :
    offered t us = (ranked t us).map Ranked.toPair := by
  unfold offered ranked
  rw [List.map_map]
  apply List.map_congr_left
  intro c hc
  obtain ⟨hcu, hne⟩ := (mem_qualifying t c us).mp hc
  obtain ⟨s, hs⟩ := Option.isSome_iff_exists.mp (hdef c hcu hne)
  simp [Ranked.toPair, hs]

theorem orderedInsert_append_of_lt {α : Type} [LinearOrder α] (s : α) (l1 l2 : List α)
    (h : ∀ x ∈ l1, x < s) :
    (l1 ++ l2).orderedInsert (· ≤ ·) s = l1 ++ l2.orderedInsert (· ≤ ·) s := by
  induction l1 with
  | nil => rfl
  | cons c t ih =>
    have hc : ¬ s ≤ c := not_le.mpr (h c (List.mem_cons_self _ _))
    rw [List.cons_append, List.orderedInsert, if_neg hc,
      ih fun x hx => h x (List.mem_cons_of_mem _ hx)]
    rfl

theorem orderedInsert_append_of_le {α : Type} [LinearOrder α] (s b : α) (l1 l2 : List α)
    (h : s ≤ b) :
    (l1 ++ b :: l2).orderedInsert (· ≤ ·) s = l1.orderedInsert (· ≤ ·) s ++ b :: l2 := by
  induction l1 with
  | nil => simp [List.orderedInsert, h]
  | cons c t ih =>
    rw [List.cons_append, List.orderedInsert, List.orderedInsert]
    by_cases hc : s ≤ c
    · rw [if_pos hc, if_pos hc]; rfl
    · rw [if_neg hc, if_neg hc, ih]; rfl

theorem sorted_map_score (q : List Ranked) (h : q.Sorted (· ≤ ·)) :
    (q.map Ranked.score).Sorted (· ≤ ·) :=
  List.Pairwise.map _ (fun a b hab => Prod.Lex.monotone_fst a b hab) h

theorem map_score_orderedInsert (e : Ranked) (q : List Ranked) (h : q.Sorted (· ≤ ·)) :
    (q.orderedInsert (· ≤ ·) e).map Ranked.score =
      (q.map Ranked.score).orderedInsert (· ≤ ·) e.score := by
  apply List.eq_of_perm_of_sorted (r := (· ≤ ·))
  · exact ((List.perm_orderedInsert _ e q).map _).trans
      (List.perm_orderedInsert _ e.score (q.map Ranked.score)).symm
  · exact sorted_map_score _ (h.orderedInsert e q)
  · exact (sorted_map_score _ h).orderedInsert _ _

theorem offerRanked_sorted (bound : Nat) (q : List Ranked) (e : Ranked)
    (h : q.Sorted (· ≤ ·)) : (offerRanked bound q e).Sorted (· ≤ ·) := by
  unfold offerRanked
  split_ifs with h1
  · exact h.orderedInsert e q
  · cases q with
    | nil => exact List.sorted_nil
    | cons top rest =>
      simp only
      split_ifs
      · exact h.of_cons.orderedInsert e rest
      · exact h

theorem offerRanked_split (bound : Nat) (q : List Ranked) (e : Ranked)
    (low asc : List ℝ) (hq : q.Sorted (· ≤ ·)) (hasc : asc.Sorted (· ≤ ·))
    (hsplit : asc = low ++ q.map Ranked.score) (hlow : q.length < bound → low = []) :
    ∃ low1, asc.orderedInsert (· ≤ ·) e.score = low1 ++ (offerRanked bound q e).map Ranked.score ∧
      ((offerRanked bound q e).length < bound → low1 = []) := by
  unfold offerRanked
  by_cases h1 : q.length < bound
  · rw [if_pos h1]
    refine ⟨[], ?_, fun _ => rfl⟩
    rw [hsplit, hlow h1, List.nil_append, List.nil_append, map_score_orderedInsert e q hq]
  · rw [if_neg h1]
    cases q with
    | nil =>
      refine ⟨asc.orderedInsert (· ≤ ·) e.score, by simp, ?_⟩
      intro h2
      exact absurd h2 h1
    | cons top rest =>
      simp only
      by_cases h2 : (ofLex top).1 < (ofLex e).1
      · rw [if_pos h2]
        refine ⟨low ++ [top.score], ?_, ?_⟩
        · rw [map_score_orderedInsert e rest hq.of_cons, hsplit, List.map_cons, List.append_cons]
          apply orderedInsert_append_of_lt
          intro x hx
          rw [hsplit, List.map_cons] at hasc
          rcases List.mem_append.mp hx with hx1 | hx1
          · exact lt_of_le_of_lt
              ((List.pairwise_append.mp hasc).2.2 x hx1 top.score (List.mem_cons_self _ _)) h2
          · rw [List.mem_singleton.mp hx1]
            exact h2
        · intro h3
          rw [List.orderedInsert_length] at h3
          exact absurd h3 h1
      · rw [if_neg h2]
        refine ⟨low.orderedInsert (· ≤ ·) e.score, ?_, ?_⟩
        · rw [hsplit, List.map_cons]
          exact orderedInsert_append_of_le _ _ _ _ (not_lt.mp h2)
        · intro h3
          exact absurd h3 h1

theorem insertAll_sorted (scores asc : List ℝ) (h : asc.Sorted (· ≤ ·)) :
    (insertAll asc scores).Sorted (· ≤ ·) := by
  induction scores generalizing asc with
  | nil => exact h
  | cons s rest ih => exact ih _ (h.orderedInsert s asc)

theorem insertAll_perm (scores asc : List ℝ) : (insertAll asc scores).Perm (scores ++ asc) := by
  induction scores generalizing asc with
  | nil => exact List.Perm.refl _
  | cons s rest ih =>
    refine (ih _).trans ?_
    refine ((List.perm_orderedInsert _ s asc).append_left rest).trans ?_
    exact List.perm_middle

theorem run_ranked_inv (bound : Nat) (es q : List Ranked) (low asc : List ℝ)
    (hq : q.Sorted (· ≤ ·)) (hasc : asc.Sorted (· ≤ ·))
    (hsplit : asc = low ++ q.map Ranked.score) (hlow : q.length < bound → low = []) :
    (es.foldl (offerRanked bound) q).Sorted (· ≤ ·) ∧
      ∃ low1, insertAll asc (es.map Ranked.score) =
        low1 ++ (es.foldl (offerRanked bound) q).map Ranked.score := by
  induction es generalizing q low asc with
  | nil => exact ⟨hq, low, hsplit⟩
  | cons e rest ih =>
    obtain ⟨low1, h1, h2⟩ := offerRanked_split bound q e low asc hq hasc hsplit hlow
    exact ih (offerRanked bound q e) low1 (asc.orderedInsert (· ≤ ·) e.score)
      (offerRanked_sorted bound q e hq) (hasc.orderedInsert _ _) h1 h2

theorem reverse_sorted_eq (scores asc : List ℝ) (hs : asc.Sorted (· ≤ ·))
    (hp : asc.Perm scores) : asc.reverse = scores.insertionSort (· ≥ ·) := by
  apply List.eq_of_perm_of_sorted (r := (· ≥ ·))
  · exact (List.reverse_perm asc).trans (hp.trans (List.perm_insertionSort _ scores).symm)
  · exact List.pairwise_reverse.mpr hs
  · exact List.sorted_insertionSort _ scores

theorem map_getD_eq_filterMap (f : UserProfile → Option ℝ) (l : List UserProfile)
    (h : ∀ c ∈ l, (f c).isSome) : (l.map fun c => (f c).getD 0) = l.filterMap f := by
  induction l with
  | nil => rfl
  | cons c rest ih =>
    obtain ⟨s, hs⟩ := Option.isSome_iff_exists.mp (h c (List.mem_cons_self _ _))
    rw [List.map_cons, List.filterMap_cons_some hs, ih fun d hd => h d (List.mem_cons_of_mem _ hd),
      hs]
    rfl

theorem ranked_scores (t : UserProfile) (us : List UserProfile)
    (hdef : ∀ c ∈ us, c.username ≠ t.username → (calculateSimilarity t c).isSome) :
    (ranked t us).map Ranked.score = candidateScores t us := by
  unfold ranked candidateScores
  rw [List.map_map]
  exact map_getD_eq_filterMap (calculateSimilarity t) (qualifying t us) fun c hc =>
    hdef c ((mem_qualifying t c us).mp hc).1 ((mem_qualifying t c us).mp hc).2

theorem findSimilarUsers_defined (t : UserProfile) (us : List UserProfile) (k : Int)
    (hb : 1 ≤ asSize k)
    (hdef : ∀ c ∈ us, c.username ≠ t.username → (calculateSimilarity t c).isSome) :
    ∃ (q : List Ranked) (low : List ℝ),
      findSimilarUsers t us k = Except.ok (drain (q.map Ranked.toPair)) ∧
      q.Sorted (· ≤ ·) ∧ q.length = min (asSize k) (qualifying t us).length ∧
      (low ++ q.map Ranked.score).Sorted (· ≤ ·) ∧
      (low ++ q.map Ranked.score).Perm (candidateScores t us) ∧
      (q.map Ranked.toPair).Subperm (offered t us) := by
  obtain ⟨q0, hrun, -, hlen, hsub⟩ := findSimilarUsers_ok_of_bound t us k hb
  have hsim := run_toPair (asSize k) hb (ranked t us) []
  rw [List.map_nil, ← offered_eq_ranked t us hdef, hrun] at hsim
  have hq0 : q0 = ((ranked t us).foldl (offerRanked (asSize k)) []).map Ranked.toPair := by
    injection hsim
  obtain ⟨hsorted, low, hsplit⟩ := run_ranked_inv (asSize k) (ranked t us) [] [] []
    List.sorted_nil List.sorted_nil rfl (fun _ => rfl)
  refine ⟨(ranked t us).foldl (offerRanked (asSize k)) [], low, ?_, hsorted, ?_, ?_, ?_, ?_⟩
  · rw [findSimilarUsers_eq, hrun, hq0]; rfl
  · rw [← hlen, hq0, List.length_map]
  · rw [← hsplit]
    exact insertAll_sorted _ _ List.sorted_nil
  · rw [← hsplit, ← ranked_scores t us hdef]
    simpa using insertAll_perm ((ranked t us).map Ranked.score) []
  · rw [← hq0]; exact hsub

theorem drain_toPair_scores (q : List Ranked) :
    (drain (q.map Ranked.toPair)).map Prod.snd = ((q.map Ranked.score).reverse).map some := by
  unfold drain
  rw [← List.map_reverse, ← List.map_reverse, ← List.map_reverse, List.map_map, List.map_map,
    List.map_map]
  rfl

theorem drain_toPair_descending (q : List Ranked) (h : q.Sorted (· ≤ ·)) :
    (drain (q.map Ranked.toPair)).Pairwise fun a b => Score.le b.2 a.2 := by
  unfold drain
  rw [List.pairwise_reverse, List.map_map]
  refine List.Pairwise.map _ ?_ h
  intro a b hab
  exact Prod.Lex.monotone_fst a b hab

theorem top_scores_eq (bound : Nat) (scores low qs : List ℝ)
    (hs : (low ++ qs).Sorted (· ≤ ·)) (hp : (low ++ qs).Perm scores)
    (hl : qs.length = min bound scores.length) : qs.reverse = largest bound scores := by
  unfold largest
  rw [← reverse_sorted_eq scores (low ++ qs) hs hp, List.reverse_append, ← hl,
    ← List.length_reverse qs, List.take_left]

/-! ## The claims -/



theorem calculateSimilarity_none_of_zero_totals (a b : UserProfile) (ha : a.totalPlaytime = 0)
    (hb : b.totalPlaytime = 0) :
    playtimeSimilarity a b = none ∧ calculateSimilarity a b = none := by
  have hp : playtimeSimilarity a b = none := by
    unfold playtimeSimilarity
    rw [ha, hb]
    simp
  exact ⟨hp, calculateSimilarity_none_of_playtime a b hp⟩

/-- C1 (fails on the code): the two profiles `UserProfile("A")` and `UserProfile("B")` are
well-formed, both totals are `0`, and `calculateSimilarity` has no value for them: the division by
`max(0, 0)` is not guarded, so the result is not a number of `[0, 1]`. -/
theorem calculateSimilarity_undefined_on_empty_profiles :
    WellFormed (UserProfile.mk0 "A") ∧ WellFormed (UserProfile.mk0 "B") ∧
      (UserProfile.mk0 "A").totalPlaytime = 0 ∧ (UserProfile.mk0 "B").totalPlaytime = 0 ∧
      calculateSimilarity (UserProfile.mk0 "A") (UserProfile.mk0 "B") = none ∧
      ¬ ∃ s : ℝ, calculateSimilarity (UserProfile.mk0 "A") (UserProfile.mk0 "B") = some s ∧
        0 ≤ s ∧ s ≤ 1 := by
  have h := (calculateSimilarity_none_of_zero_totals (UserProfile.mk0 "A") (UserProfile.mk0 "B")
    rfl rfl).2
  refine ⟨by decide, by decide, rfl, rfl, h, ?_⟩
  rintro ⟨s, hs, -⟩
  rw [h] at hs
  cases hs

/-- C2: `calculateSimilarity` and each of its three sub-scores (catalog overlap, engagement
magnitude, temporal pattern) give the same result for `(A, B)` and for `(B, A)`. -/
theorem calculateSimilarity_symmetric (a b : UserProfile) :
    calculateSimilarity a b = calculateSimilarity b a ∧
      gameSimilarity a b = gameSimilarity b a ∧
      playtimeSimilarity a b = playtimeSimilarity b a ∧
      hourlySimilarity a b = hourlySimilarity b a :=
  ⟨calculateSimilarity_comm a b, gameSimilarity_comm a b, playtimeSimilarity_comm a b,
    hourlySimilarity_comm a b⟩

/-- C10 (fails on the code): for the two well-formed profiles `idleChess` and `idleGo`, whose
totals are both `0`, the engagement-magnitude sub-score is not `1`: the division by `max(0, 0)`
is taken, the sub-score has no value, and neither has the composite, which therefore is not
`0.4 * catalogScore + 0.3 + 0.3 * temporalScore` (the temporal sub-score is `1` here). -/
theorem calculateSimilarity_zero_totals_not_guarded :
    WellFormed idleChess ∧ WellFormed idleGo ∧
      max idleChess.totalPlaytime idleGo.totalPlaytime = 0 ∧
      playtimeSimilarity idleChess idleGo = none ∧
      playtimeSimilarity idleChess idleGo ≠ some 1 ∧
      calculateSimilarity idleChess idleGo = none ∧
      hourlySimilarity idleChess idleGo = some 1 ∧
      ∀ h : ℝ, calculateSimilarity idleChess idleGo ≠
        some (composite ((gameSimilarity idleChess idleGo : ℚ) : ℝ) 1 h) := by
  obtain ⟨hp, hc⟩ := calculateSimilarity_none_of_zero_totals idleChess idleGo rfl rfl
  refine ⟨by decide, by decide, rfl, hp, ?_, hc, ?_, ?_⟩
  · rw [hp]; exact fun h => by cases h
  · have hs : hourlySums idleChess idleGo = HourlyAcc.mk 1800 3600 900 := by decide
    have e1 : Real.sqrt 3600 = 60 := by
      rw [show (3600 : ℝ) = 60 * 60 by norm_num]
      exact Real.sqrt_mul_self (by norm_num)
    have e2 : Real.sqrt 900 = 30 := by
      rw [show (900 : ℝ) = 30 * 30 by norm_num]
      exact Real.sqrt_mul_self (by norm_num)
    unfold hourlySimilarity
    rw [hs]
    norm_num [e1, e2]
  · intro h
    rw [hc]
    exact fun h => by cases h

/-- C5: for `1 <= k` (an `int`), `findSimilarUsers` returns a result and it has exactly
`min(k, q)` entries, `q` being the number of candidates whose username differs from the
target's. -/
theorem findSimilarUsers_length (t : UserProfile) (us : List UserProfile) (k : Int)
    (h1 : 1 ≤ k) (h2 : k < 2 ^ 31) :
    ∃ res, findSimilarUsers t us k = Except.ok res ∧
      (res.length : Int) = min k ((qualifying t us).length : Int) := by
  have hk : asSize k = k.toNat := asSize_of_nonneg k (by omega) (by omega)
  obtain ⟨q, -, hres, hl, -⟩ := findSimilarUsers_ok_of_bound t us k (by rw [hk]; omega)
  refine ⟨drain q, hres, ?_⟩
  rw [drain_length, hl, hk]
  omega

/-- C5 at the target of the scenario, the candidates `[X, Target, Y]` and `k = 1`. -/
theorem findSimilarUsers_length_witness :
    (1 : Int) ≤ 1 ∧ (1 : Int) < 2 ^ 31 ∧
      ∃ res, findSimilarUsers scenarioTarget [candidateX, scenarioTarget, candidateY] 1 =
          Except.ok res ∧
        (res.length : Int) =
          min 1 ((qualifying scenarioTarget [candidateX, scenarioTarget, candidateY]).length : Int) :=
  ⟨by decide, by decide,
    findSimilarUsers_length scenarioTarget [candidateX, scenarioTarget, candidateY] 1
      (by decide) (by decide)⟩

theorem findSimilarUsers_zero_of_qualifying (t : UserProfile) (us : List UserProfile)
    (h : qualifying t us ≠ []) : findSimilarUsers t us 0 = Except.error Fault.topOfEmpty := by
  rw [findSimilarUsers_eq]
  have h0 : asSize 0 = 0 := by decide
  rw [h0]
  cases ho : offered t us with
  | nil =>
    exfalso
    apply h
    have := congrArg List.length ho
    rw [offered_length] at this
    exact List.eq_nil_of_length_eq_zero (by simpa using this)
  | cons e es => rw [run_zero_bound]; rfl

/-- C8 (fails on the code): with `k = 0` and the one candidate X, whose username differs from
the target's, the test `topUsers.size() < maxSuggestions` is `0 < 0`, the `else if` branch is
reached and reads `topUsers.top()` on the empty queue; no empty sequence is returned. -/
theorem findSimilarUsers_zero_reads_empty_top :
    qualifying scenarioTarget [candidateX] = [candidateX] ∧
      findSimilarUsers scenarioTarget [candidateX] 0 = Except.error Fault.topOfEmpty ∧
      findSimilarUsers scenarioTarget [candidateX] 0 ≠ Except.ok [] := by
  have h : findSimilarUsers scenarioTarget [candidateX] 0 = Except.error Fault.topOfEmpty :=
    findSimilarUsers_zero_of_qualifying scenarioTarget [candidateX] (by decide)
  refine ⟨by decide, h, ?_⟩
  rw [h]
  exact fun h => by cases h

theorem offered_scenario :
    offered scenarioTarget [candidateX, candidateY] = [(some (4 / 5), "X"), (some 0, "Y")] := by
  have hq : qualifying scenarioTarget [candidateX, candidateY] = [candidateX, candidateY] := by
    decide
  unfold offered
  rw [hq, List.map_cons, List.map_cons, List.map_nil, calculateSimilarity_targetX,
    calculateSimilarity_targetY]
  rfl

theorem findSimilarUsers_scenario :
    findSimilarUsers scenarioTarget [candidateX, candidateY] 1 =
      Except.ok [("X", some (4 / 5))] := by
  have h1 : asSize 1 = 1 := by decide
  have s1 : offer 1 [] (some (4 / 5), "X") = Except.ok [(some (4 / 5), "X")] := by
    unfold offer
    rw [if_pos (by decide)]
    rfl
  have s2 : offer 1 [(some (4 / 5), "X")] (some 0, "Y") = Except.ok [(some (4 / 5), "X")] := by
    unfold offer
    rw [if_neg (by decide)]
    have : ¬ Score.lt (some (4 / 5)) (some 0) := by
      show ¬ ((4 / 5 : ℝ) < 0)
      norm_num
    simp only
    rw [if_neg this]
  rw [findSimilarUsers_eq, offered_scenario, h1, List.foldlM_cons, s1]
  show (List.foldlM (offer 1) [(some (4 / 5), "X")] [(some 0, "Y")]).map drain = _
  rw [List.foldlM_cons, s2]
  rfl

/-- C3: for `1 <= k` (an `int`) and candidates whose scores are all defined, `findSimilarUsers`
returns a result whose scores are, as a multiset, the `min(k, |Q|)` largest scores of the
candidates `Q` whose username differs from the target's; the scores of `Q` are those returned
together with the scores `rest` left out, and no score left out exceeds a returned one. For the
candidates `[X (0.8), Y (0.0)]` of the scenario and `k = 1` the result is `[("X", 0.8)]`. -/
theorem findSimilarUsers_returns_largest_scores :
    (∀ (t : UserProfile) (us : List UserProfile) (k : Int), 1 ≤ k → k < 2 ^ 31 →
      (∀ c ∈ us, c.username ≠ t.username → (calculateSimilarity t c).isSome) →
      ∃ res, findSimilarUsers t us k = Except.ok res ∧
        (res.map Prod.snd).Perm ((largest k.toNat (candidateScores t us)).map some) ∧
        (largest k.toNat (candidateScores t us)).length = min k.toNat (qualifying t us).length ∧
        ∃ rest : List ℝ,
          (candidateScores t us).Perm (largest k.toNat (candidateScores t us) ++ rest) ∧
          ∀ s ∈ rest, ∀ r ∈ largest k.toNat (candidateScores t us), s ≤ r) ∧
      findSimilarUsers scenarioTarget [candidateX, candidateY] 1 =
        Except.ok [("X", some (4 / 5))] := by
  refine ⟨?_, findSimilarUsers_scenario⟩
  intro t us k h1 h2 hdef
  have hk : asSize k = k.toNat := asSize_of_nonneg k (by omega) (by omega)
  obtain ⟨q, low, hres, -, hlen, hs, hp, -⟩ :=
    findSimilarUsers_defined t us k (by rw [hk]; omega) hdef
  have hn : (candidateScores t us).length = (qualifying t us).length := by
    rw [← ranked_scores t us hdef]
    simp [ranked]
  have hl : (q.map Ranked.score).length = min k.toNat (candidateScores t us).length := by
    rw [List.length_map, hlen, hk, hn]
  have htop := top_scores_eq k.toNat (candidateScores t us) low (q.map Ranked.score) hs hp hl
  refine ⟨_, hres, ?_, ?_, low, ?_, ?_⟩
  · rw [drain_toPair_scores, htop]
  · rw [← htop, List.length_reverse, hl, hn]
  · rw [← htop]
    exact hp.symm.trans (List.perm_append_comm.trans ((List.reverse_perm _).symm.append_right low))
  · intro s hs1 r hr
    rw [← htop, List.mem_reverse] at hr
    exact (List.pairwise_append.mp hs).2.2 s hs1 r hr

/-- C3 at the candidates `[X, Y]` of the scenario and `k = 1`. -/
theorem findSimilarUsers_returns_largest_scores_witness :
    (1 : Int) ≤ 1 ∧ (1 : Int) < 2 ^ 31 ∧
      ∃ res, findSimilarUsers scenarioTarget [candidateX, candidateY] 1 = Except.ok res ∧
        (res.map Prod.snd).Perm
          ((largest (1 : Int).toNat
            (candidateScores scenarioTarget [candidateX, candidateY])).map some) :=
  ⟨by decide, by decide, by
    obtain ⟨res, h1, h2, -⟩ := findSimilarUsers_returns_largest_scores.1 scenarioTarget
      [candidateX, candidateY] 1 (by decide) (by decide) (by
        intro c hc _
        rcases List.mem_cons.mp hc with rfl | hc
        · rw [calculateSimilarity_targetX]; rfl
        · rw [List.mem_singleton.mp hc, calculateSimilarity_targetY]; rfl)
    exact ⟨res, h1, h2⟩⟩

/-- C4: for `1 <= k` (an `int`) and candidates whose scores are all defined, `findSimilarUsers`
returns a result in which every entry's score is `>=` the score of the entry after it. -/
theorem findSimilarUsers_descending (t : UserProfile) (us : List UserProfile) (k : Int)
    (h1 : 1 ≤ k) (h2 : k < 2 ^ 31)
    (hdef : ∀ c ∈ us, c.username ≠ t.username → (calculateSimilarity t c).isSome) :
    ∃ res, findSimilarUsers t us k = Except.ok res ∧
      res.Chain' fun earlier later => Score.le later.2 earlier.2 := by
  have hk : asSize k = k.toNat := asSize_of_nonneg k (by omega) (by omega)
  obtain ⟨q, low, hres, hsorted, -⟩ := findSimilarUsers_defined t us k (by rw [hk]; omega) hdef
  exact ⟨_, hres, (drain_toPair_descending q hsorted).chain'⟩

theorem scenario_defined : ∀ c ∈ [candidateX, candidateY],
    c.username ≠ scenarioTarget.username → (calculateSimilarity scenarioTarget c).isSome := by
  intro c hc _
  rcases List.mem_cons.mp hc with rfl | hc
  · rw [calculateSimilarity_targetX]; rfl
  · rw [List.mem_singleton.mp hc, calculateSimilarity_targetY]; rfl

/-- C4 at the candidates `[X, Y]` of the scenario and `k = 2`. -/
theorem findSimilarUsers_descending_witness :
    (1 : Int) ≤ 2 ∧ (2 : Int) < 2 ^ 31 ∧
      ∃ res, findSimilarUsers scenarioTarget [candidateX, candidateY] 2 = Except.ok res ∧
        res.Chain' fun earlier later => Score.le later.2 earlier.2 :=
  ⟨by decide, by decide,
    findSimilarUsers_descending scenarioTarget [candidateX, candidateY] 2 (by decide) (by decide)
      scenario_defined⟩

theorem offered_swap (t : UserProfile) (us : List UserProfile) :
    (offered t us).map (fun e => (e.2, e.1)) =
      (qualifying t us).map fun c => (c.username, calculateSimilarity t c) := by
  unfold offered
  rw [List.map_map]
  rfl

theorem findSimilarUsers_all_of_large (t : UserProfile) (us : List UserProfile) (k : Int)
    (hlarge : (qualifying t us).length ≤ asSize k) :
    ∃ q, (offered t us).foldlM (offer (asSize k)) [] = Except.ok q ∧
      findSimilarUsers t us k = Except.ok (drain q) ∧ q.Perm (offered t us) ∧
      (drain q).Perm ((qualifying t us).map fun c => (c.username, calculateSimilarity t c)) := by
  obtain ⟨q, hq, hp⟩ := run_perm_of_large (asSize k) (offered t us) []
    (by rw [offered_length]; simpa using hlarge)
  have hp2 : q.Perm (offered t us) := by simpa using hp
  refine ⟨q, hq, ?_, hp2, ?_⟩
  · rw [findSimilarUsers_eq, hq]; rfl
  · rw [← offered_swap]
    exact (drain_perm q).trans (hp2.map _)

theorem qualifying_length_le (t : UserProfile) (us : List UserProfile) :
    (qualifying t us).length ≤ us.length :=
  List.length_filter_le _ _

/-- C7: for an `int` `k` that is at least the length of the candidate list, and candidates whose
scores are all defined, `findSimilarUsers` raises no error and returns a permutation of the
pairs `(c.username, calculateSimilarity(target, c))` of all candidates `c` whose username
differs from the target's, every entry's score being `>=` the score of the entry after it. -/
theorem findSimilarUsers_all_when_k_large (t : UserProfile) (us : List UserProfile) (k : Int)
    (hk : (us.length : Int) ≤ k) (h2 : k < 2 ^ 31)
    (hdef : ∀ c ∈ us, c.username ≠ t.username → (calculateSimilarity t c).isSome) :
    ∃ res, findSimilarUsers t us k = Except.ok res ∧
      res.Perm ((qualifying t us).map fun c => (c.username, calculateSimilarity t c)) ∧
      res.Chain' fun earlier later => Score.le later.2 earlier.2 := by
  have hk0 : (0 : Int) ≤ k := le_trans (Int.ofNat_nonneg _) hk
  have hs : asSize k = k.toNat := asSize_of_nonneg k hk0 (by omega)
  have hq := qualifying_length_le t us
  obtain ⟨q, -, hres, -, hperm⟩ := findSimilarUsers_all_of_large t us k (by rw [hs]; omega)
  refine ⟨drain q, hres, hperm, ?_⟩
  by_cases hb : 1 ≤ asSize k
  · obtain ⟨q1, low, hres1, hsorted, -⟩ := findSimilarUsers_defined t us k hb hdef
    rw [hres] at hres1
    injection hres1 with hres1
    rw [hres1]
    exact (drain_toPair_descending q1 hsorted).chain'
  · have hlen : (drain q).length = 0 := by
      rw [hperm.length_eq, List.length_map]
      rw [hs] at hb
      omega
    rw [List.eq_nil_of_length_eq_zero hlen]
    exact List.chain'_nil

/-- C7 at the candidates `[X, Y]` of the scenario and `k = 5`. -/
theorem findSimilarUsers_all_when_k_large_witness :
    (([candidateX, candidateY] : List UserProfile).length : Int) ≤ 5 ∧ (5 : Int) < 2 ^ 31 ∧
      ∃ res, findSimilarUsers scenarioTarget [candidateX, candidateY] 5 = Except.ok res ∧
        res.Perm (([candidateX, candidateY] : List UserProfile).map
          fun c => (c.username, calculateSimilarity scenarioTarget c)) ∧
        res.Chain' fun earlier later => Score.le later.2 earlier.2 :=
  ⟨by decide, by decide, by
    have h := findSimilarUsers_all_when_k_large scenarioTarget [candidateX, candidateY] 5
      (by decide) (by decide) scenario_defined
    have hq : qualifying scenarioTarget [candidateX, candidateY] = [candidateX, candidateY] := by
      decide
    rw [hq] at h
    exact h⟩

theorem mem_gameNames (p : UserProfile) (n : String) :
    n ∈ gameNames p ↔ ∃ g ∈ p.games, g.name = n := by
  unfold gameNames
  rw [List.mem_toFinset, List.mem_map]

theorem gameSimilarity_self (a : UserProfile) :
    gameSimilarity a a = if a.games = [] then 0 else 1 := by
  have hi : gameIntersection a a = gameNames a := by
    rw [gameIntersection_eq_inter, Finset.inter_self]
  unfold gameSimilarity
  rw [hi]
  by_cases h : a.games = []
  · have : gameNames a = ∅ := by
      unfold gameNames
      rw [h]
      rfl
    rw [if_pos this, if_pos h]
  · have hne : gameNames a ≠ ∅ := by
      obtain ⟨g, hg⟩ := List.exists_mem_of_ne_nil _ h
      intro he
      have : g.name ∈ gameNames a := (mem_gameNames a g.name).mpr ⟨g, hg, rfl⟩
      rw [he] at this
      exact absurd this (Finset.not_mem_empty _)
    have hpos : 0 < (gameNames a).card := Finset.card_pos.mpr (Finset.nonempty_iff_ne_empty.mpr hne)
    rw [if_neg hne, if_neg h, Nat.add_sub_cancel]
    have : ((gameNames a).card : ℚ) ≠ 0 := by exact_mod_cast hpos.ne'
    exact div_self this

theorem playtimeSimilarity_self (a : UserProfile) (h : a.totalPlaytime ≠ 0) :
    playtimeSimilarity a a = some 1 := by
  unfold playtimeSimilarity
  rw [max_self, if_neg h, sub_self]
  simp

theorem hourVector_eq (p : UserProfile) (h : Fin 24) :
    hourVector p h = ((hourAt p.hourlyPlaytime ((h : ℕ) : Int) : Int) : ℝ) := by
  unfold hourVector hourAt
  cases p.hourlyPlaytime.lookup ((h : ℕ) : Int) <;> simp

theorem dot24_hourVector (a b : UserProfile) :
    dot24 (hourVector a) (hourVector b) =
      ((∑ h in Finset.range 24,
        hourAt a.hourlyPlaytime (h : Int) * hourAt b.hourlyPlaytime (h : Int) : Int) : ℝ) := by
  unfold dot24
  simp only [hourVector_eq]
  rw [Fin.sum_univ_eq_sum_range (fun i : ℕ =>
    ((hourAt a.hourlyPlaytime (i : Int) : Int) : ℝ) * ((hourAt b.hourlyPlaytime (i : Int) : Int) : ℝ))]
  push_cast
  rfl

theorem norm24_eq (v : Fin 24 → ℝ) : norm24 v = Real.sqrt (dot24 v v) := rfl

theorem dot24_self_nonneg (v : Fin 24 → ℝ) : 0 ≤ dot24 v v :=
  Finset.sum_nonneg fun h _ => mul_self_nonneg (v h)

theorem hourlySums_cast (a b : UserProfile) (ha : HourlyBounded a) (hb : HourlyBounded b) :
    ((hourlySums a b).dotProduct : ℝ) = dot24 (hourVector a) (hourVector b) ∧
      ((hourlySums a b).norm1 : ℝ) = dot24 (hourVector a) (hourVector a) ∧
      ((hourlySums a b).norm2 : ℝ) = dot24 (hourVector b) (hourVector b) := by
  obtain ⟨hd, h1, h2⟩ := hourlySums_of_bounded a b ha hb
  rw [hd, h1, h2, dot24_hourVector, dot24_hourVector, dot24_hourVector]
  exact ⟨rfl, rfl, rfl⟩

theorem hourlySimilarity_eq_cosine (a b : UserProfile) (ha : HourlyBounded a)
    (hb : HourlyBounded b) :
    hourlySimilarity a b = some (cosine24 (hourVector a) (hourVector b)) := by
  obtain ⟨h1, h2, -⟩ := hourlySums_facts a b ha hb
  obtain ⟨cd, c1, c2⟩ := hourlySums_cast a b ha hb
  have e1 : (norm24 (hourVector a) = 0) ↔ (hourlySums a b).norm1 = 0 := by
    rw [norm24_eq, ← c1, Real.sqrt_eq_zero (by exact_mod_cast h1)]
    exact_mod_cast Iff.rfl
  have e2 : (norm24 (hourVector b) = 0) ↔ (hourlySums a b).norm2 = 0 := by
    rw [norm24_eq, ← c2, Real.sqrt_eq_zero (by exact_mod_cast h2)]
    exact_mod_cast Iff.rfl
  unfold hourlySimilarity cosine24
  by_cases h : (hourlySums a b).norm1 = 0 ∨ (hourlySums a b).norm2 = 0
  · rw [if_pos h, if_pos (h.imp e1.mpr e2.mpr)]
  · have hneg : ¬ ((hourlySums a b).norm1 < 0 ∨ (hourlySums a b).norm2 < 0) :=
      fun h3 => h3.elim (fun h4 => absurd h1 (not_le.mpr h4))
        (fun h4 => absurd h2 (not_le.mpr h4))
    have hnorm : ¬ (norm24 (hourVector a) = 0 ∨ norm24 (hourVector b) = 0) :=
      fun h3 => h (h3.imp e1.mp e2.mp)
    rw [if_neg h, if_neg hneg, if_neg hnorm, cd, c1, c2, norm24_eq, norm24_eq]

theorem cosine24_self (v : Fin 24 → ℝ) : cosine24 v v = if norm24 v = 0 then 0 else 1 := by
  unfold cosine24
  by_cases h : norm24 v = 0
  · rw [if_pos (Or.inl h), if_pos h]
  · rw [if_neg (fun h3 => h (h3.elim id id)), if_neg h, norm24_eq,
      Real.mul_self_sqrt (dot24_self_nonneg v)]
    have : dot24 v v ≠ 0 := by
      intro h0
      apply h
      rw [norm24_eq, h0, Real.sqrt_zero]
    exact div_self this

theorem hourlySimilarity_self (a : UserProfile) (ha : HourlyBounded a) :
    hourlySimilarity a a = some (if norm24 (hourVector a) = 0 then 0 else 1) := by
  rw [hourlySimilarity_eq_cosine a a ha ha, cosine24_self]

/-- C11 (fails on the code): the profile Y of the scenario has no games, and the catalog
sub-score of `calculateSimilarity(Y, Y)` is `0`, not `1`: an empty intersection is special-cased
to `0`. -/
theorem gameSimilarity_self_of_no_games :
    candidateY.games = [] ∧ gameSimilarity candidateY candidateY = 0 ∧
      gameSimilarity candidateY candidateY ≠ 1 := by
  have h : gameSimilarity candidateY candidateY = 0 := by
    rw [gameSimilarity_self]
    rfl
  refine ⟨rfl, h, ?_⟩
  rw [h]
  norm_num

/-- C11 as amended: for `calculateSimilarity(A, A)` the catalog sub-score is `1` when `A` has a
game and `0` when it has none; when `A.totalPlaytime` is not `0` the magnitude sub-score is `1`;
when every hourly value of `A` lies in `-46340 .. 46340` (no `int` product overflows) the
temporal sub-score is `1` when the hourly vector of `A` over the hours `0 .. 23` has a non-zero
norm and `0` when that norm is `0`, and then, with a total other than `0`, the composite is a
number `<= 1`. -/
theorem calculateSimilarity_self (a : UserProfile) :
    (a.games ≠ [] → gameSimilarity a a = 1) ∧
      (a.games = [] → gameSimilarity a a = 0) ∧
      (a.totalPlaytime ≠ 0 → playtimeSimilarity a a = some 1) ∧
      (HourlyBounded a → norm24 (hourVector a) ≠ 0 → hourlySimilarity a a = some 1) ∧
      (HourlyBounded a → norm24 (hourVector a) = 0 → hourlySimilarity a a = some 0) ∧
      (a.totalPlaytime ≠ 0 → HourlyBounded a →
        ∃ s : ℝ, calculateSimilarity a a = some s ∧ s ≤ 1) := by
  refine ⟨fun h => ?_, fun h => ?_, playtimeSimilarity_self a, fun hb h => ?_, fun hb h => ?_,
    fun h hb => ?_⟩
  · rw [gameSimilarity_self, if_neg h]
  · rw [gameSimilarity_self, if_pos h]
  · rw [hourlySimilarity_self a hb, if_neg h]
  · rw [hourlySimilarity_self a hb, if_pos h]
  · obtain ⟨x, hx, hx1, -⟩ := hourlySimilarity_defined a a hb hb
    refine ⟨_, calculateSimilarity_eq_some a a 1 x (playtimeSimilarity_self a h) hx, ?_⟩
    have g1 : ((gameSimilarity a a : ℚ) : ℝ) ≤ 1 := by exact_mod_cast gameSimilarity_le_one a a
    unfold composite
    norm_num
    linarith

theorem norm24_scenarioTarget : norm24 (hourVector scenarioTarget) ≠ 0 := by
  intro h
  have h1 := hourlySimilarity_self scenarioTarget (by decide)
  rw [if_pos h] at h1
  have hs : hourlySums scenarioTarget scenarioTarget = HourlyAcc.mk 7200 7200 7200 := by decide
  unfold hourlySimilarity at h1
  rw [hs] at h1
  norm_num at h1

/-- C11 as amended, at the target of the scenario: all three sub-scores are `1`. -/
theorem calculateSimilarity_self_witness :
    gameSimilarity scenarioTarget scenarioTarget = 1 ∧
      playtimeSimilarity scenarioTarget scenarioTarget = some 1 ∧
      hourlySimilarity scenarioTarget scenarioTarget = some 1 ∧
      ∃ s : ℝ, calculateSimilarity scenarioTarget scenarioTarget = some s ∧ s ≤ 1 :=
  ⟨(calculateSimilarity_self scenarioTarget).1 (by decide),
    (calculateSimilarity_self scenarioTarget).2.2.1 (by decide),
    (calculateSimilarity_self scenarioTarget).2.2.2.1 (by decide) norm24_scenarioTarget,
    (calculateSimilarity_self scenarioTarget).2.2.2.2.2 (by decide) (by decide)⟩

/-- C12: the catalog sub-score is the Jaccard index of the two sets of game names (a name
belongs to the set of a profile exactly when one of its games carries it), `0` when the union is
empty, and the quotient of the code is formed only with a non-zero divisor. -/
theorem gameSimilarity_eq_jaccard (a b : UserProfile) :
    gameSimilarity a b = jaccardIndex (gameNames a) (gameNames b) ∧
      (∀ n, n ∈ gameNames a ↔ ∃ g ∈ a.games, g.name = n) ∧
      (gameNames a ∪ gameNames b = ∅ → gameSimilarity a b = 0) ∧
      (gameIntersection a b ≠ ∅ →
        (gameNames a).card + (gameNames b).card - (gameIntersection a b).card ≠ 0) := by
  have hj : gameSimilarity a b = jaccardIndex (gameNames a) (gameNames b) := by
    unfold gameSimilarity jaccardIndex
    rw [gameIntersection_eq_inter, ← Finset.card_union]
    by_cases hi : gameNames a ∩ gameNames b = ∅
    · rw [if_pos hi, hi]
      split_ifs <;> simp
    · have hu : gameNames a ∪ gameNames b ≠ ∅ := by
        intro hu
        apply hi
        rw [Finset.union_eq_empty] at hu
        rw [hu.1, hu.2]
        rfl
      rw [if_neg hi, if_neg hu]
  refine ⟨hj, mem_gameNames a, fun hu => ?_, fun hi => ?_⟩
  · rw [hj]
    unfold jaccardIndex
    rw [if_pos hu]
  · have hpos : 0 < (gameIntersection a b).card :=
      Finset.card_pos.mpr (Finset.nonempty_iff_ne_empty.mpr hi)
    have := gameIntersection_card_le a b
    omega

/-- C12 at the scenario: the name sets `{Chess, Go}` and `{Chess}` have Jaccard index `1/2`. -/
theorem gameSimilarity_eq_jaccard_witness :
    jaccardIndex (gameNames scenarioTarget) (gameNames candidateX) = 1 / 2 ∧
      (gameNames scenarioTarget).card + (gameNames candidateX).card -
        (gameIntersection scenarioTarget candidateX).card ≠ 0 :=
  ⟨by rw [← (gameSimilarity_eq_jaccard scenarioTarget candidateX).1, gameSimilarity_targetX],
    (gameSimilarity_eq_jaccard scenarioTarget candidateX).2.2.2 (by decide)⟩

/-! ## The temporal sub-score, the scenario and the total -/

theorem hourAt_congr (a a1 : UserProfile) (h : ℕ)
    (hl : a.hourlyPlaytime.lookup (h : Int) = a1.hourlyPlaytime.lookup (h : Int)) :
    hourAt a.hourlyPlaytime (h : Int) = hourAt a1.hourlyPlaytime (h : Int) := by
  unfold hourAt
  rw [hl]

theorem hourlySums_congr (a a1 b : UserProfile)
    (h : ∀ h : ℕ, h < 24 →
      a.hourlyPlaytime.lookup (h : Int) = a1.hourlyPlaytime.lookup (h : Int)) :
    hourlySums a b = hourlySums a1 b ∧ hourlySums b a = hourlySums b a1 := by
  have hx : ∀ i ∈ Finset.range 24,
      hourAt a.hourlyPlaytime (i : Int) = hourAt a1.hourlyPlaytime (i : Int) :=
    fun i hi => hourAt_congr a a1 i (h i (Finset.mem_range.mp hi))
  rw [hourlySums_eq, hourlySums_eq, hourlySums_eq, hourlySums_eq]
  constructor
  · congr 1
    · exact Finset.sum_congr rfl fun i hi => by rw [hx i hi]
    · exact Finset.sum_congr rfl fun i hi => by rw [hx i hi]
  · congr 1
    · exact Finset.sum_congr rfl fun i hi => by rw [hx i hi]
    · exact Finset.sum_congr rfl fun i hi => by rw [hx i hi]

/-- Entries of the hourly map under keys outside `0 .. 23` have no effect on the temporal
sub-score. -/
theorem hourlySimilarity_ignores_other_keys (a a1 b : UserProfile)
    (h : ∀ h : ℕ, h < 24 →
      a.hourlyPlaytime.lookup (h : Int) = a1.hourlyPlaytime.lookup (h : Int)) :
    hourlySimilarity a b = hourlySimilarity a1 b ∧
      hourlySimilarity b a = hourlySimilarity b a1 := by
  obtain ⟨h1, h2⟩ := hourlySums_congr a a1 b h
  unfold hourlySimilarity
  rw [h1, h2]
  exact ⟨rfl, rfl⟩

/-- The temporal sub-score when no product overflows: for profiles whose hourly values lie in
`-46340 .. 46340` it is the cosine similarity of the two 24-dimensional hourly vectors, `0` when
a norm is `0`. -/
theorem hourlySimilarity_is_cosine_of_bounded (a b : UserProfile) (ha : HourlyBounded a)
    (hb : HourlyBounded b) :
    hourlySimilarity a b = some (cosine24 (hourVector a) (hourVector b)) ∧
      (norm24 (hourVector a) = 0 ∨ norm24 (hourVector b) = 0 → hourlySimilarity a b = some 0) ∧
      (¬ (norm24 (hourVector a) = 0 ∨ norm24 (hourVector b) = 0) →
        hourlySimilarity a b = some (dot24 (hourVector a) (hourVector b) /
          (norm24 (hourVector a) * norm24 (hourVector b)))) := by
  refine ⟨hourlySimilarity_eq_cosine a b ha hb, fun h => ?_, fun h => ?_⟩
  · rw [hourlySimilarity_eq_cosine a b ha hb]
    unfold cosine24
    rw [if_pos h]
  · rw [hourlySimilarity_eq_cosine a b ha hb]
    unfold cosine24
    rw [if_neg h]

theorem hourlySimilarity_is_cosine_of_bounded_example :
    hourlySimilarity scenarioTarget candidateX =
        some (cosine24 (hourVector scenarioTarget) (hourVector candidateX)) ∧
      hourlySimilarity scenarioTarget candidateX =
        hourlySimilarity scenarioTargetLate candidateX :=
  ⟨(hourlySimilarity_is_cosine_of_bounded scenarioTarget candidateX (by decide) (by decide)).1,
    (hourlySimilarity_ignores_other_keys scenarioTarget scenarioTargetLate candidateX
      (by decide)).1⟩

theorem norm24_ne_zero_of_entry (p : UserProfile) (h : Fin 24) (hv : hourVector p h ≠ 0) :
    norm24 (hourVector p) ≠ 0 := by
  intro h0
  rw [norm24_eq, Real.sqrt_eq_zero (dot24_self_nonneg _)] at h0
  have hle : hourVector p h * hourVector p h ≤ dot24 (hourVector p) (hourVector p) :=
    Finset.single_le_sum (f := fun i => hourVector p i * hourVector p i)
      (fun i _ => mul_self_nonneg _) (Finset.mem_univ h)
  have hpos : 0 < hourVector p h * hourVector p h := mul_self_pos.mpr hv
  linarith

theorem hourVector_marathon : hourVector marathon 0 = 65536 := by
  simp [hourVector, marathon, List.lookup]

theorem hourVector_sprinter : hourVector sprinter 0 = 46341 := by
  simp [hourVector, sprinter, List.lookup]

/-- C13 (fails on the code): the profile `marathon` holds 65536 minutes in hour `0`. Its hourly
vector has a non-zero norm and cosine similarity `1` with itself, but the `int` product
`65536 * 65536` is `0`, so the code finds the norm `0` and returns the temporal sub-score `0`.
For `sprinter`, with 46341 minutes, the `int` product is negative, the square root has no value
and neither has the temporal sub-score, while the cosine similarity is `1`. -/
theorem hourlySimilarity_differs_from_cosine :
    WellFormed marathon ∧ hourlySums marathon marathon = HourlyAcc.mk 0 0 0 ∧
      hourlySimilarity marathon marathon = some 0 ∧
      norm24 (hourVector marathon) ≠ 0 ∧
      cosine24 (hourVector marathon) (hourVector marathon) = 1 ∧
      WellFormed sprinter ∧
      hourlySums sprinter sprinter =
        HourlyAcc.mk (-2147479015) (-2147479015) (-2147479015) ∧
      hourlySimilarity sprinter sprinter = none ∧
      cosine24 (hourVector sprinter) (hourVector sprinter) = 1 := by
  have hm : norm24 (hourVector marathon) ≠ 0 :=
    norm24_ne_zero_of_entry marathon 0 (by rw [hourVector_marathon]; norm_num)
  have hs : norm24 (hourVector sprinter) ≠ 0 :=
    norm24_ne_zero_of_entry sprinter 0 (by rw [hourVector_sprinter]; norm_num)
  have sm : hourlySums marathon marathon = HourlyAcc.mk 0 0 0 := by decide
  have ss : hourlySums sprinter sprinter =
      HourlyAcc.mk (-2147479015) (-2147479015) (-2147479015) := by decide
  refine ⟨by decide, sm, ?_, hm, ?_, by decide, ss, ?_, ?_⟩
  · unfold hourlySimilarity
    rw [sm]
    simp
  · rw [cosine24_self, if_neg hm]
  · unfold hourlySimilarity
    rw [ss]
    simp
  · rw [cosine24_self, if_neg hs]

/-- C14: for the target (games Chess and Go, total 120, hourly `{18: 60, 19: 60}`) and the
candidate X (game Chess, total 120, the same hourly map) the catalog sub-score is `1/2`, the
magnitude sub-score `1`, the temporal sub-score `1`, and `calculateSimilarity` returns
`0.4 * 0.5 + 0.3 * 1 + 0.3 * 1 = 0.8`. -/
theorem calculateSimilarity_scenario_X :
    scenarioTarget.games.map Game.name = ["Chess", "Go"] ∧ scenarioTarget.totalPlaytime = 120 ∧
      scenarioTarget.hourlyPlaytime = [(18, 60), (19, 60)] ∧
      candidateX.games.map Game.name = ["Chess"] ∧ candidateX.totalPlaytime = 120 ∧
      candidateX.hourlyPlaytime = [(18, 60), (19, 60)] ∧
      gameSimilarity scenarioTarget candidateX = 1 / 2 ∧
      playtimeSimilarity scenarioTarget candidateX = some 1 ∧
      hourlySimilarity scenarioTarget candidateX = some 1 ∧
      calculateSimilarity scenarioTarget candidateX = some (0.4 * 0.5 + 0.3 * 1 + 0.3 * 1) ∧
      (0.4 * 0.5 + 0.3 * 1 + 0.3 * 1 : ℝ) = 0.8 := by
  refine ⟨rfl, rfl, rfl, rfl, rfl, rfl, gameSimilarity_targetX, playtimeSimilarity_targetX,
    hourlySimilarity_targetX, ?_, by norm_num⟩
  rw [calculateSimilarity_targetX]
  norm_num

theorem hourlySums_norm2_of_no_hours (t c : UserProfile) (hc : c.hourlyPlaytime = []) :
    (hourlySums t c).norm2 = 0 := by
  rw [hourlySums_norm2, hc]
  apply Finset.sum_eq_zero
  intro h _
  rfl

/-- C15: for every target with a positive total, and the candidate Y (no games, total `0`,
empty hourly map), the catalog, magnitude and temporal sub-scores are `0` and
`calculateSimilarity` returns `0`. -/
theorem calculateSimilarity_scenario_Y (t : UserProfile) (ht : 0 < t.totalPlaytime) :
    gameSimilarity t candidateY = 0 ∧ playtimeSimilarity t candidateY = some 0 ∧
      hourlySimilarity t candidateY = some 0 ∧ calculateSimilarity t candidateY = some 0 := by
  have hg : gameSimilarity t candidateY = 0 := by
    have hi : gameIntersection t candidateY = ∅ := by
      rw [gameIntersection_eq_inter]
      have : gameNames candidateY = ∅ := rfl
      rw [this, Finset.inter_empty]
    unfold gameSimilarity
    rw [if_pos hi]
  have hp : playtimeSimilarity t candidateY = some 0 := by
    have hY : candidateY.totalPlaytime = 0 := rfl
    have hm : max t.totalPlaytime 0 = t.totalPlaytime := max_eq_left ht.le
    unfold playtimeSimilarity
    rw [hY, hm, if_neg ht.ne', sub_zero, Nat.cast_natAbs, abs_of_pos ht]
    have : ((t.totalPlaytime : Int) : ℚ) ≠ 0 := by exact_mod_cast ht.ne'
    rw [div_self this, sub_self]
  have hh : hourlySimilarity t candidateY = some 0 := by
    unfold hourlySimilarity
    rw [if_pos (Or.inr (hourlySums_norm2_of_no_hours t candidateY rfl))]
  refine ⟨hg, hp, hh, ?_⟩
  rw [calculateSimilarity_eq_some _ _ _ _ hp hh, hg]
  simp [composite]

/-- C15 at the target of the scenario, whose total is `120`. -/
theorem calculateSimilarity_scenario_Y_witness :
    (0 : Int) < scenarioTarget.totalPlaytime ∧ candidateY.games = [] ∧
      candidateY.totalPlaytime = 0 ∧ candidateY.hourlyPlaytime = [] ∧
      gameSimilarity scenarioTarget candidateY = 0 ∧
      playtimeSimilarity scenarioTarget candidateY = some 0 ∧
      hourlySimilarity scenarioTarget candidateY = some 0 ∧
      calculateSimilarity scenarioTarget candidateY = some 0 :=
  ⟨by decide, rfl, rfl, rfl, calculateSimilarity_scenario_Y scenarioTarget (by decide)⟩

theorem totalConsistent_mk0 (name : String) : TotalConsistent (UserProfile.mk0 name) :=
  ⟨rfl, le_rfl⟩

theorem totalConsistent_addGame (u : UserProfile) (name : String) (playtime : Int)
    (hu : TotalConsistent u) (hp : 0 ≤ playtime) (hfit : u.totalPlaytime + playtime < 2 ^ 31) :
    TotalConsistent (u.addGame name playtime) := by
  obtain ⟨h1, h2⟩ := hu
  have hw : wrapInt (u.totalPlaytime + playtime) = u.totalPlaytime + playtime :=
    wrapInt_of_fits _ (by omega) hfit
  constructor
  · show wrapInt (u.totalPlaytime + playtime) =
      ((u.games ++ [Game.mk name playtime]).map Game.playtime).sum
    rw [hw, List.map_append, List.sum_append, h1]
    simp
  · show 0 ≤ wrapInt (u.totalPlaytime + playtime)
    rw [hw]
    omega

theorem addHourlyPlaytime_keeps (u : UserProfile) (hour minutes : Int) :
    (u.addHourlyPlaytime hour minutes).games = u.games ∧
      (u.addHourlyPlaytime hour minutes).totalPlaytime = u.totalPlaytime ∧
      (u.addHourlyPlaytime hour minutes).username = u.username :=
  ⟨rfl, rfl, rfl⟩

theorem playtime_nonneg_of_admissible (op : ProfileOp) (h : op.Admissible) : 0 ≤ op.playtime := by
  cases op with
  | addGame name playtime => exact h
  | addHourlyPlaytime hour minutes => exact le_rfl

theorem totalConsistent_foldl (ops : List ProfileOp) (u : UserProfile) (hu : TotalConsistent u)
    (hops : ∀ op ∈ ops, op.Admissible)
    (hfit : u.totalPlaytime + (ops.map ProfileOp.playtime).sum < 2 ^ 31) :
    TotalConsistent (ops.foldl ProfileOp.run u) := by
  induction ops generalizing u with
  | nil => exact hu
  | cons op rest ih =>
    have hrest : ∀ o ∈ rest, o.Admissible := fun o ho => hops o (List.mem_cons_of_mem _ ho)
    have hsum : 0 ≤ (rest.map ProfileOp.playtime).sum := by
      apply List.sum_nonneg
      intro x hx
      obtain ⟨o, ho, rfl⟩ := List.mem_map.mp hx
      exact playtime_nonneg_of_admissible o (hrest o ho)
    have hop := hops op (List.mem_cons_self _ _)
    rw [List.map_cons, List.sum_cons] at hfit
    rw [List.foldl_cons]
    cases op with
    | addGame name playtime =>
      have hp : 0 ≤ playtime := hop
      have hstep : u.totalPlaytime + playtime < 2 ^ 31 := by
        simp only [ProfileOp.playtime] at hfit
        omega
      have hnew : (u.addGame name playtime).totalPlaytime = u.totalPlaytime + playtime :=
        wrapInt_of_fits _ (by have := hu.2; omega) hstep
      apply ih _ (totalConsistent_addGame u name playtime hu hp hstep) hrest
      rw [hnew]
      simp only [ProfileOp.playtime] at hfit
      omega
    | addHourlyPlaytime hour minutes =>
      have hu1 : TotalConsistent (u.addHourlyPlaytime hour minutes) := hu
      apply ih (u.addHourlyPlaytime hour minutes) hu1 hrest
      simp only [ProfileOp.playtime] at hfit
      show u.totalPlaytime + _ < 2 ^ 31
      omega

/-- The invariant of the total while it fits an `int`: a profile built from `UserProfile(name)`
by admissible calls whose playtimes add up to less than `2 ^ 31` has a total equal to the sum of
the playtimes of its games, and that total is non-negative; `addHourlyPlaytime` changes neither
`games` nor `totalPlaytime`. -/
theorem totalPlaytime_invariant_of_fits :
    (∀ (name : String) (ops : List ProfileOp), (∀ op ∈ ops, op.Admissible) →
        (ops.map ProfileOp.playtime).sum < 2 ^ 31 →
        (buildProfile name ops).totalPlaytime =
          ((buildProfile name ops).games.map Game.playtime).sum ∧
        0 ≤ (buildProfile name ops).totalPlaytime) ∧
      (∀ name : String, TotalConsistent (UserProfile.mk0 name)) ∧
      ∀ (u : UserProfile) (hour minutes : Int),
        (u.addHourlyPlaytime hour minutes).games = u.games ∧
          (u.addHourlyPlaytime hour minutes).totalPlaytime = u.totalPlaytime :=
  ⟨fun name ops hops hfit => totalConsistent_foldl ops _ (totalConsistent_mk0 name) hops
      (by show (0 : Int) + _ < 2 ^ 31; omega),
    totalConsistent_mk0, fun _ _ _ => ⟨rfl, rfl⟩⟩

theorem overflowOps_admissible : ∀ op ∈ overflowOps, op.Admissible := by
  intro op hop
  simp only [overflowOps, List.mem_cons, List.mem_singleton, List.not_mem_nil, or_false] at hop
  rcases hop with rfl | rfl <;> simp [ProfileOp.Admissible]

/-- C16 (fails on the code): `UserProfile("A")` followed by `addGame("G1", 2147483640)` and
`addGame("G2", 60)`, both with a non-negative playtime, has games whose playtimes add up to
`2147483700`, while `totalPlaytime`, an `int`, holds `-2147483596`: it is neither the sum nor
non-negative. -/
theorem totalPlaytime_overflows :
    (∀ op ∈ overflowOps, op.Admissible) ∧
      (buildProfile "A" overflowOps).games =
        [Game.mk "G1" 2147483640, Game.mk "G2" 60] ∧
      ((buildProfile "A" overflowOps).games.map Game.playtime).sum = 2147483700 ∧
      (buildProfile "A" overflowOps).totalPlaytime = -2147483596 ∧
      (buildProfile "A" overflowOps).totalPlaytime ≠
        ((buildProfile "A" overflowOps).games.map Game.playtime).sum ∧
      ¬ 0 ≤ (buildProfile "A" overflowOps).totalPlaytime :=
  ⟨overflowOps_admissible, by decide, by decide, by decide, by decide, by decide⟩

/-! ## Ties and the order of the candidates -/

theorem calculateSimilarity_twinA : calculateSimilarity scenarioTarget twinA = some (4 / 5) :=
  calculateSimilarity_targetX

theorem calculateSimilarity_twinB : calculateSimilarity scenarioTarget twinB = some (4 / 5) :=
  calculateSimilarity_targetX

theorem offered_twins_AB :
    offered scenarioTarget [twinA, twinB] = [(some (4 / 5), "A"), (some (4 / 5), "B")] := by
  have hq : qualifying scenarioTarget [twinA, twinB] = [twinA, twinB] := by decide
  unfold offered
  rw [hq, List.map_cons, List.map_cons, List.map_nil, calculateSimilarity_twinA,
    calculateSimilarity_twinB]
  rfl

theorem offered_twins_BA :
    offered scenarioTarget [twinB, twinA] = [(some (4 / 5), "B"), (some (4 / 5), "A")] := by
  have hq : qualifying scenarioTarget [twinB, twinA] = [twinB, twinA] := by decide
  unfold offered
  rw [hq, List.map_cons, List.map_cons, List.map_nil, calculateSimilarity_twinA,
    calculateSimilarity_twinB]
  rfl

theorem offer_first (bound : Nat) (hb : 0 < bound) (e : UserSimilarity) :
    offer bound [] e = Except.ok [e] := by
  unfold offer
  rw [if_pos (show ([] : List UserSimilarity).length < bound from hb)]
  rfl

theorem offer_full_keep (e1 e2 : UserSimilarity) (h : ¬ Score.lt e1.1 e2.1) :
    offer 1 [e1] e2 = Except.ok [e1] := by
  unfold offer
  rw [if_neg (show ¬ [e1].length < 1 from by simp)]
  simp only
  rw [if_neg h]

theorem string_A_lt_B : "A" < "B" :=
  String.lt_iff_toList_lt.mpr (by decide)

theorem not_lt_same (x : ℝ) : ¬ Score.lt (some x) (some x) := lt_irrefl x

theorem findSimilarUsers_twins_two :
    findSimilarUsers scenarioTarget [twinA, twinB] 2 =
      Except.ok [("B", some (4 / 5)), ("A", some (4 / 5))] := by
  have h2 : asSize 2 = 2 := by decide
  have s2 : offer 2 [(some (4 / 5), "A")] (some (4 / 5), "B") =
      Except.ok [(some (4 / 5), "A"), (some (4 / 5), "B")] := by
    unfold offer
    rw [if_pos (by decide)]
    have hg : pairGreater ((some (4 / 5), "B") : UserSimilarity) (some (4 / 5), "A") :=
      Or.inr ⟨not_lt_same _, string_A_lt_B⟩
    unfold pqEmplace
    rw [if_pos hg]
    rfl
  rw [findSimilarUsers_eq, offered_twins_AB, h2, List.foldlM_cons, offer_first 2 (by decide)]
  show (List.foldlM (offer 2) [(some (4 / 5), "A")] [(some (4 / 5), "B")]).map drain = _
  rw [List.foldlM_cons, s2]
  rfl

/-- C17 (fails on the code): the candidates `A` and `B` have the same score `0.8`, and with
`k = 2` the result lists `B` before `A`: on equal scores the names come out in descending
order. -/
theorem findSimilarUsers_tie_names_descend :
    calculateSimilarity scenarioTarget twinA = calculateSimilarity scenarioTarget twinB ∧
      findSimilarUsers scenarioTarget [twinA, twinB] 2 =
        Except.ok [("B", some (4 / 5)), ("A", some (4 / 5))] ∧
      ¬ ("B" ≤ "A") :=
  ⟨by rw [calculateSimilarity_twinA, calculateSimilarity_twinB], findSimilarUsers_twins_two,
    not_le.mpr string_A_lt_B⟩

theorem drain_toPair_lex (q : List Ranked) (h : q.Sorted (· ≤ ·)) :
    (drain (q.map Ranked.toPair)).Pairwise fun earlier later =>
      Score.le later.2 earlier.2 ∧ (later.2 = earlier.2 → later.1 ≤ earlier.1) := by
  unfold drain
  rw [List.pairwise_reverse, List.map_map]
  refine List.Pairwise.map _ ?_ h
  intro a b hab
  refine ⟨Prod.Lex.monotone_fst a b hab, fun heq => ?_⟩
  have heq1 : (ofLex a).1 = (ofLex b).1 := Option.some.inj heq
  rcases (Prod.Lex.le_iff (ofLex a) (ofLex b)).mp hab with h1 | h1
  · exact absurd heq1 h1.ne
  · exact h1.2

/-- C17 as amended: for `1 <= k` (an `int`) and candidates whose scores are all defined, the
result of `findSimilarUsers` is ordered by score descending and then by name descending:
whenever two adjacent entries have equal scores, the earlier entry's name is `>=` the later
entry's name. -/
theorem findSimilarUsers_ties_by_name_descending (t : UserProfile) (us : List UserProfile)
    (k : Int) (h1 : 1 ≤ k) (h2 : k < 2 ^ 31)
    (hdef : ∀ c ∈ us, c.username ≠ t.username → (calculateSimilarity t c).isSome) :
    ∃ res, findSimilarUsers t us k = Except.ok res ∧
      res.Chain' fun earlier later =>
        Score.le later.2 earlier.2 ∧ (later.2 = earlier.2 → later.1 ≤ earlier.1) := by
  have hk : asSize k = k.toNat := asSize_of_nonneg k (by omega) (by omega)
  obtain ⟨q, low, hres, hsorted, -⟩ := findSimilarUsers_defined t us k (by rw [hk]; omega) hdef
  exact ⟨_, hres, (drain_toPair_lex q hsorted).chain'⟩

theorem twins_defined : ∀ c ∈ [twinA, twinB],
    c.username ≠ scenarioTarget.username → (calculateSimilarity scenarioTarget c).isSome := by
  intro c hc _
  rcases List.mem_cons.mp hc with rfl | hc
  · rw [calculateSimilarity_twinA]; rfl
  · rw [List.mem_singleton.mp hc, calculateSimilarity_twinB]; rfl

/-- C17 as amended, at the two candidates `A` and `B` of equal score and `k = 2`. -/
theorem findSimilarUsers_ties_by_name_descending_witness :
    (1 : Int) ≤ 2 ∧ (2 : Int) < 2 ^ 31 ∧
      ∃ res, findSimilarUsers scenarioTarget [twinA, twinB] 2 = Except.ok res ∧
        res.Chain' fun earlier later =>
          Score.le later.2 earlier.2 ∧ (later.2 = earlier.2 → later.1 ≤ earlier.1) :=
  ⟨by decide, by decide,
    findSimilarUsers_ties_by_name_descending scenarioTarget [twinA, twinB] 2 (by decide)
      (by decide) twins_defined⟩

theorem findSimilarUsers_twins_AB_one :
    findSimilarUsers scenarioTarget [twinA, twinB] 1 = Except.ok [("A", some (4 / 5))] := by
  have h1 : asSize 1 = 1 := by decide
  rw [findSimilarUsers_eq, offered_twins_AB, h1, List.foldlM_cons, offer_first 1 (by decide)]
  show (List.foldlM (offer 1) [(some (4 / 5), "A")] [(some (4 / 5), "B")]).map drain = _
  rw [List.foldlM_cons, offer_full_keep _ _ (not_lt_same _)]
  rfl

theorem findSimilarUsers_twins_BA_one :
    findSimilarUsers scenarioTarget [twinB, twinA] 1 = Except.ok [("B", some (4 / 5))] := by
  have h1 : asSize 1 = 1 := by decide
  rw [findSimilarUsers_eq, offered_twins_BA, h1, List.foldlM_cons, offer_first 1 (by decide)]
  show (List.foldlM (offer 1) [(some (4 / 5), "B")] [(some (4 / 5), "A")]).map drain = _
  rw [List.foldlM_cons, offer_full_keep _ _ (not_lt_same _)]
  rfl

/-- C18: the candidate lists `[A, B]` and `[B, A]` are permutations of each other and the two
candidates have the same score, yet with `k = 1` the first list gives `[("A", 0.8)]` and the
second `[("B", 0.8)]`: the candidate listed first is kept, since a later one replaces the held
minimum only when its score is strictly greater. -/
theorem findSimilarUsers_depends_on_order :
    ([twinA, twinB] : List UserProfile).Perm [twinB, twinA] ∧
      calculateSimilarity scenarioTarget twinA = calculateSimilarity scenarioTarget twinB ∧
      twinA.username ≠ twinB.username ∧
      findSimilarUsers scenarioTarget [twinA, twinB] 1 = Except.ok [("A", some (4 / 5))] ∧
      findSimilarUsers scenarioTarget [twinB, twinA] 1 = Except.ok [("B", some (4 / 5))] ∧
      findSimilarUsers scenarioTarget [twinA, twinB] 1 ≠
        findSimilarUsers scenarioTarget [twinB, twinA] 1 := by
  refine ⟨List.Perm.swap _ _ _, by rw [calculateSimilarity_twinA, calculateSimilarity_twinB],
    by decide, findSimilarUsers_twins_AB_one, findSimilarUsers_twins_BA_one, ?_⟩
  rw [findSimilarUsers_twins_AB_one, findSimilarUsers_twins_BA_one]
  intro h
  injection h with h
  have h3 := congrArg (fun l => l.map Prod.fst) h
  simp at h3

/-! ## Negative bounds and order independence -/

theorem run_all_insert (bound : Nat) (es q : List UserSimilarity)
    (h : q.length + es.length ≤ bound) :
    es.foldlM (offer bound) q = Except.ok (es.foldl (fun acc e => pqEmplace e acc) q) := by
  induction es generalizing q with
  | nil => rfl
  | cons e rest ih =>
    simp only [List.length_cons] at h
    have h1 : offer bound q e = Except.ok (pqEmplace e q) := by
      unfold offer
      rw [if_pos (by omega)]
    rw [List.foldlM_cons, h1, List.foldl_cons]
    exact ih _ (by rw [pqEmplace_length]; omega)

theorem findSimilarUsers_of_large (t : UserProfile) (us : List UserProfile) (k : Int)
    (h : us.length ≤ asSize k) :
    findSimilarUsers t us k =
      Except.ok (drain ((offered t us).foldl (fun acc e => pqEmplace e acc) [])) := by
  rw [findSimilarUsers_eq, run_all_insert]
  · rfl
  · rw [offered_length]
    have := qualifying_length_le t us
    simp only [List.length_nil, zero_add]
    omega

/-- A negative bound acts as the length of the list: for every negative `int` `k` and every
candidate list with fewer than `2 ^ 64 + k` entries (the value of `k` once converted to
`size_t`), `findSimilarUsers` raises no error and returns what it returns for
`k = length of the list`: a permutation of the pairs
`(c.username, calculateSimilarity(target, c))` of all candidates whose username differs from the
target's, in descending score order when all these scores are defined. -/
theorem findSimilarUsers_negative_as_length (t : UserProfile) (us : List UserProfile) (k : Int)
    (hneg : k < 0) (hint : -(2 ^ 31) ≤ k) (hlen : (us.length : Int) < 2 ^ 64 + k) :
    asSize k = (2 ^ 64 + k).toNat ∧
      findSimilarUsers t us k = findSimilarUsers t us (us.length : Int) ∧
      ∃ res, findSimilarUsers t us k = Except.ok res ∧
        res.Perm ((qualifying t us).map fun c => (c.username, calculateSimilarity t c)) ∧
        ((∀ c ∈ us, c.username ≠ t.username → (calculateSimilarity t c).isSome) →
          res.Chain' fun earlier later => Score.le later.2 earlier.2) := by
  have hs : asSize k = (2 ^ 64 + k).toNat := asSize_of_neg k hneg (by omega)
  have hl : asSize (us.length : Int) = us.length := by
    rw [asSize_of_nonneg _ (Int.ofNat_nonneg _) (by omega)]
    rfl
  have hq := qualifying_length_le t us
  refine ⟨hs, ?_, ?_⟩
  · rw [findSimilarUsers_of_large t us k (by rw [hs]; omega),
      findSimilarUsers_of_large t us (us.length : Int) (by rw [hl])]
  · obtain ⟨q, -, hres, -, hperm⟩ := findSimilarUsers_all_of_large t us k (by rw [hs]; omega)
    refine ⟨drain q, hres, hperm, fun hdef => ?_⟩
    obtain ⟨q1, low, hres1, hsorted, -⟩ :=
      findSimilarUsers_defined t us k (by rw [hs]; omega) hdef
    rw [hres] at hres1
    injection hres1 with hres1
    rw [hres1]
    exact (drain_toPair_descending q1 hsorted).chain'

/-- The candidates `[X, Y]` of the scenario: `k = -1` returns what `k = 2` returns. -/
theorem findSimilarUsers_negative_as_length_example :
    (-1 : Int) < 0 ∧ -(2 ^ 31) ≤ (-1 : Int) ∧
      (([candidateX, candidateY] : List UserProfile).length : Int) < 2 ^ 64 + (-1) ∧
      asSize (-1) = 2 ^ 64 - 1 ∧
      findSimilarUsers scenarioTarget [candidateX, candidateY] (-1) =
        findSimilarUsers scenarioTarget [candidateX, candidateY] 2 :=
  ⟨by decide, by decide, by decide, by decide,
    (findSimilarUsers_negative_as_length scenarioTarget [candidateX, candidateY] (-1)
      (by decide) (by decide) (by decide)).2.1⟩

theorem calculateSimilarity_idle_idle : calculateSimilarity idleTarget idleCandidate = none :=
  (calculateSimilarity_none_of_zero_totals idleTarget idleCandidate rfl rfl).2

theorem calculateSimilarity_idle_busy : calculateSimilarity idleTarget busyCandidate = some 0 := by
  have hg : gameSimilarity idleTarget busyCandidate = 0 := by
    have h1 : gameIntersection idleTarget busyCandidate = ∅ := by decide
    unfold gameSimilarity
    rw [if_pos h1]
  have hp : playtimeSimilarity idleTarget busyCandidate = some 0 := by
    simp [playtimeSimilarity, idleTarget, busyCandidate]
  have hh : hourlySimilarity idleTarget busyCandidate = some 0 := by
    unfold hourlySimilarity
    rw [if_pos (Or.inr (hourlySums_norm2_of_no_hours idleTarget busyCandidate rfl))]
  rw [calculateSimilarity_eq_some _ _ _ _ hp hh, hg]
  simp [composite]

theorem findSimilarUsers_idle_first :
    findSimilarUsers idleTarget [idleCandidate, busyCandidate] 1 = Except.ok [("N", none)] := by
  have h1 : asSize 1 = 1 := by decide
  have ho : offered idleTarget [idleCandidate, busyCandidate] = [(none, "N"), (some 0, "M")] := by
    have hq : qualifying idleTarget [idleCandidate, busyCandidate] =
        [idleCandidate, busyCandidate] := by decide
    unfold offered
    rw [hq, List.map_cons, List.map_cons, List.map_nil, calculateSimilarity_idle_idle,
      calculateSimilarity_idle_busy]
    rfl
  rw [findSimilarUsers_eq, ho, h1, List.foldlM_cons, offer_first 1 (by decide)]
  show (List.foldlM (offer 1) [(none, "N")] [(some 0, "M")]).map drain = _
  rw [List.foldlM_cons, offer_full_keep (none, "N") (some 0, "M") (fun h => h)]
  rfl

theorem findSimilarUsers_busy_first :
    findSimilarUsers idleTarget [busyCandidate, idleCandidate] 1 = Except.ok [("M", some 0)] := by
  have h1 : asSize 1 = 1 := by decide
  have ho : offered idleTarget [busyCandidate, idleCandidate] = [(some 0, "M"), (none, "N")] := by
    have hq : qualifying idleTarget [busyCandidate, idleCandidate] =
        [busyCandidate, idleCandidate] := by decide
    unfold offered
    rw [hq, List.map_cons, List.map_cons, List.map_nil, calculateSimilarity_idle_idle,
      calculateSimilarity_idle_busy]
    rfl
  rw [findSimilarUsers_eq, ho, h1, List.foldlM_cons, offer_first 1 (by decide)]
  show (List.foldlM (offer 1) [(some 0, "M")] [(none, "N")]).map drain = _
  rw [List.foldlM_cons, offer_full_keep (some 0, "M") (none, "N") (fun h => h)]
  rfl

theorem offered_idle_busy :
    offered idleTarget [idleCandidate, busyCandidate] = [(none, "N"), (some 0, "M")] := by
  have hq : qualifying idleTarget [idleCandidate, busyCandidate] =
      [idleCandidate, busyCandidate] := by decide
  unfold offered
  rw [hq, List.map_cons, List.map_cons, List.map_nil, calculateSimilarity_idle_idle,
    calculateSimilarity_idle_busy]
  rfl

theorem string_N_not_lt_M : ¬ "N" < "M" := by
  rw [String.lt_iff_toList_lt]
  decide

theorem findSimilarUsers_idle_negative :
    findSimilarUsers idleTarget [idleCandidate, busyCandidate] (-1) =
      Except.ok [("N", none), ("M", some 0)] := by
  have hg : ¬ pairGreater ((some 0, "M") : UserSimilarity) (none, "N") := by
    rintro (h | ⟨-, h⟩)
    · exact h
    · exact string_N_not_lt_M h
  rw [findSimilarUsers_of_large idleTarget [idleCandidate, busyCandidate] (-1) (by decide),
    offered_idle_busy]
  show Except.ok (drain (pqEmplace (some 0, "M") (pqEmplace (none, "N") []))) = _
  have h1 : pqEmplace ((none, "N") : UserSimilarity) [] = [(none, "N")] := rfl
  rw [h1]
  unfold pqEmplace
  rw [if_neg hg]
  rfl

/-- C20 (fails on the code): the target and the candidate `N` have total `0`, so the score of `N`
is the unguarded `0 / 0` and has no value, while the score of `M` is `0`. With `k = -1` the call
raises no error and returns both candidates, as it does for `k = 2`, but in the order
`[("N", no value), ("M", 0)]`, which is not a descending score order: the valueless score is not
`>=` the score `0`. -/
theorem findSimilarUsers_negative_not_descending :
    WellFormed idleTarget ∧ WellFormed idleCandidate ∧ WellFormed busyCandidate ∧
      asSize (-1) = 2 ^ 64 - 1 ∧
      findSimilarUsers idleTarget [idleCandidate, busyCandidate] (-1) =
        Except.ok [("N", none), ("M", some 0)] ∧
      findSimilarUsers idleTarget [idleCandidate, busyCandidate] (-1) =
        findSimilarUsers idleTarget [idleCandidate, busyCandidate] 2 ∧
      ¬ List.Chain' (fun earlier later : String × Score => Score.le later.2 earlier.2)
        [("N", none), ("M", some 0)] := by
  refine ⟨by decide, by decide, by decide, by decide, findSimilarUsers_idle_negative,
    (findSimilarUsers_negative_as_length idleTarget [idleCandidate, busyCandidate] (-1)
      (by decide) (by decide) (by decide)).2.1, ?_⟩
  rw [List.chain'_pair]
  exact fun h => h

/-- C19 (fails on the code): the target and the candidate `N` have total `0`, so the score of `N`
is the unguarded `0 / 0` and has no value, while the score of `M` is `0`; the two scores are
distinct, the lists `[N, M]` and `[M, N]` are permutations of each other, and with `k = 1` the
first gives `[("N", no value)]` and the second `[("M", 0)]`: no comparison with the valueless
score succeeds, so the candidate listed first is kept. -/
theorem findSimilarUsers_order_matters_without_value :
    WellFormed idleTarget ∧ WellFormed idleCandidate ∧ WellFormed busyCandidate ∧
      ([idleCandidate, busyCandidate] : List UserProfile).Perm [busyCandidate, idleCandidate] ∧
      calculateSimilarity idleTarget idleCandidate ≠ calculateSimilarity idleTarget busyCandidate ∧
      findSimilarUsers idleTarget [idleCandidate, busyCandidate] 1 = Except.ok [("N", none)] ∧
      findSimilarUsers idleTarget [busyCandidate, idleCandidate] 1 = Except.ok [("M", some 0)] ∧
      findSimilarUsers idleTarget [idleCandidate, busyCandidate] 1 ≠
        findSimilarUsers idleTarget [busyCandidate, idleCandidate] 1 := by
  refine ⟨by decide, by decide, by decide, List.Perm.swap _ _ _, ?_, findSimilarUsers_idle_first,
    findSimilarUsers_busy_first, ?_⟩
  · rw [calculateSimilarity_idle_idle, calculateSimilarity_idle_busy]
    exact fun h => by cases h
  · rw [findSimilarUsers_idle_first, findSimilarUsers_busy_first]
    intro h
    injection h with h
    have h3 := congrArg (fun l => l.map Prod.snd) h
    simp at h3

theorem toPair_injective : Function.Injective Ranked.toPair := by
  intro a b h
  have h1 : (ofLex a).1 = (ofLex b).1 :=
    Option.some.inj (congrArg (fun p : UserSimilarity => p.1) h)
  have h2 : (ofLex a).2 = (ofLex b).2 := congrArg (fun p : UserSimilarity => p.2) h
  exact Prod.ext h1 h2

theorem nodup_of_subperm (l1 l2 : List ℝ) (h : l1.Subperm l2) (hn : l2.Nodup) : l1.Nodup := by
  obtain ⟨l, hl, hsl⟩ := h
  exact hl.nodup_iff.mp (hn.sublist hsl)

theorem largest_perm (k : Nat) (s1 s2 : List ℝ) (h : s1.Perm s2) : largest k s1 = largest k s2 := by
  unfold largest
  rw [h.length_eq]
  congr 1
  exact List.eq_of_perm_of_sorted (r := (· ≥ ·))
    (((List.perm_insertionSort _ s1).trans h).trans (List.perm_insertionSort _ s2).symm)
    (List.sorted_insertionSort _ s1) (List.sorted_insertionSort _ s2)

theorem candidateScores_length (t : UserProfile) (us : List UserProfile)
    (hdef : ∀ c ∈ us, c.username ≠ t.username → (calculateSimilarity t c).isSome) :
    (candidateScores t us).length = (qualifying t us).length := by
  rw [← ranked_scores t us hdef]
  simp [ranked]

theorem findSimilarUsers_defined_queue (t : UserProfile) (us : List UserProfile) (k : Int)
    (hb : 1 ≤ asSize k)
    (hdef : ∀ c ∈ us, c.username ≠ t.username → (calculateSimilarity t c).isSome) :
    ∃ q : List Ranked,
      findSimilarUsers t us k = Except.ok (drain (q.map Ranked.toPair)) ∧
      q.Sorted (· ≤ ·) ∧
      (q.map Ranked.score).reverse = largest (asSize k) (candidateScores t us) ∧
      (q.map Ranked.score).Subperm (candidateScores t us) ∧
      ∀ e ∈ q, e ∈ ranked t us := by
  obtain ⟨q, low, hres, hsorted, hlen, hs, hp, hsub⟩ := findSimilarUsers_defined t us k hb hdef
  refine ⟨q, hres, hsorted, ?_, ?_, ?_⟩
  · apply top_scores_eq (asSize k) (candidateScores t us) low (q.map Ranked.score) hs hp
    rw [List.length_map, hlen, candidateScores_length t us hdef]
  · exact (List.sublist_append_right low _).subperm.trans hp.subperm
  · intro e he
    have h1 : e.toPair ∈ offered t us := hsub.subset (List.mem_map_of_mem _ he)
    rw [offered_eq_ranked t us hdef] at h1
    obtain ⟨e1, he1, heq⟩ := List.mem_map.mp h1
    rw [← toPair_injective heq]
    exact he1

theorem ranked_scores_nodup (t : UserProfile) (us : List UserProfile)
    (hdef : ∀ c ∈ us, c.username ≠ t.username → (calculateSimilarity t c).isSome)
    (hdist : (qualifying t us).Pairwise fun c d =>
      calculateSimilarity t c ≠ calculateSimilarity t d) :
    ((ranked t us).map Ranked.score).Nodup := by
  unfold ranked
  rw [List.map_map]
  unfold List.Nodup
  rw [List.pairwise_map]
  refine List.Pairwise.imp_of_mem ?_ hdist
  intro c d hc hd hne heq
  obtain ⟨hcu, hcn⟩ := (mem_qualifying t c us).mp hc
  obtain ⟨hdu, hdn⟩ := (mem_qualifying t d us).mp hd
  obtain ⟨x, hx⟩ := Option.isSome_iff_exists.mp (hdef c hcu hcn)
  obtain ⟨y, hy⟩ := Option.isSome_iff_exists.mp (hdef d hdu hdn)
  apply hne
  have : x = y := by
    simpa [Ranked.score, hx, hy] using heq
  rw [hx, hy, this]

theorem queue_mem_of_scores (q1 q2 l2 : List Ranked) (hq2 : ∀ e ∈ q2, e ∈ l2)
    (hnd : (l2.map Ranked.score).Nodup) (hs : q1.map Ranked.score = q2.map Ranked.score)
    (e : Ranked) (he : e ∈ q1) (hl : e ∈ l2) : e ∈ q2 := by
  have h1 : e.score ∈ q2.map Ranked.score := by
    rw [← hs]
    exact List.mem_map_of_mem _ he
  obtain ⟨e1, he1, heq⟩ := List.mem_map.mp h1
  have : e1 = e := List.inj_on_of_nodup_map hnd (hq2 e1 he1) hl heq
  rw [← this]
  exact he1

/-- Order independence when every score is a number: for `1 <= k`, two candidate lists that are
permutations of each other and qualifying candidates with pairwise distinct, defined scores,
`findSimilarUsers` returns the same sequence for both lists. -/
theorem findSimilarUsers_order_independent (t : UserProfile) (us1 us2 : List UserProfile)
    (k : Int) (h1 : 1 ≤ k) (h2 : k < 2 ^ 31) (hp : us1.Perm us2)
    (hdef : ∀ c ∈ us1, c.username ≠ t.username → (calculateSimilarity t c).isSome)
    (hdist : (qualifying t us1).Pairwise fun c d =>
      calculateSimilarity t c ≠ calculateSimilarity t d) :
    findSimilarUsers t us1 k = findSimilarUsers t us2 k := by
  have hk : asSize k = k.toNat := asSize_of_nonneg k (by omega) (by omega)
  have hb : 1 ≤ asSize k := by rw [hk]; omega
  have hdef2 : ∀ c ∈ us2, c.username ≠ t.username → (calculateSimilarity t c).isSome :=
    fun c hc => hdef c (hp.mem_iff.mpr hc)
  have hqp : (qualifying t us1).Perm (qualifying t us2) := hp.filter _
  have hrp : (ranked t us1).Perm (ranked t us2) := hqp.map _
  have hsp : (candidateScores t us1).Perm (candidateScores t us2) := hqp.filterMap _
  have hn1 := ranked_scores_nodup t us1 hdef hdist
  have hn2 : ((ranked t us2).map Ranked.score).Nodup := (hrp.map _).nodup_iff.mp hn1
  obtain ⟨q1, hres1, hsort1, htop1, hsub1, hmem1⟩ := findSimilarUsers_defined_queue t us1 k hb hdef
  obtain ⟨q2, hres2, hsort2, htop2, hsub2, hmem2⟩ :=
    findSimilarUsers_defined_queue t us2 k hb hdef2
  have hscores : q1.map Ranked.score = q2.map Ranked.score := by
    apply List.reverse_injective
    rw [htop1, htop2, largest_perm _ _ _ hsp]
  have hd1 : q1.Nodup := by
    apply List.Nodup.of_map Ranked.score
    rw [ranked_scores t us1 hdef] at hn1
    exact nodup_of_subperm _ _ hsub1 hn1
  have hd2 : q2.Nodup := by
    apply List.Nodup.of_map Ranked.score
    rw [ranked_scores t us2 hdef2] at hn2
    exact nodup_of_subperm _ _ hsub2 hn2
  have hperm : q1.Perm q2 := by
    rw [List.perm_ext_iff_of_nodup hd1 hd2]
    intro e
    constructor
    · intro he
      exact queue_mem_of_scores q1 q2 (ranked t us2) hmem2 hn2 hscores e he
        (hrp.mem_iff.mp (hmem1 e he))
    · intro he
      exact queue_mem_of_scores q2 q1 (ranked t us1) hmem1 hn1 hscores.symm e he
        (hrp.mem_iff.mpr (hmem2 e he))
  rw [hres1, hres2, List.eq_of_perm_of_sorted (r := (· ≤ ·)) hperm hsort1 hsort2]

/-- Order independence at the candidates X (score `0.8`) and Y (score `0`) of the scenario. -/
theorem findSimilarUsers_order_independent_example :
    findSimilarUsers scenarioTarget [candidateX, candidateY] 1 =
      findSimilarUsers scenarioTarget [candidateY, candidateX] 1 :=
  findSimilarUsers_order_independent scenarioTarget [candidateX, candidateY]
    [candidateY, candidateX] 1 (by decide) (by decide) (List.Perm.swap _ _ _) scenario_defined
    (by
      have hq : qualifying scenarioTarget [candidateX, candidateY] = [candidateX, candidateY] := by
        decide
      rw [hq, List.pairwise_cons]
      refine ⟨?_, List.pairwise_singleton _ _⟩
      intro d hd
      rw [List.mem_singleton.mp hd, calculateSimilarity_targetX, calculateSimilarity_targetY]
      intro h
      have := Option.some.inj h
      norm_num at this)

end FriendFinder
